import Mathlib

/-!
Shallow embedding of the storage/capacity-management and undo subsystem of the
browser-based document manager (storage utilities in the unnamed storage module,
`src/lib/storage-utils.ts`, `src/lib/file-utils.ts`, and the dashboard
orchestration component).

Modelling conventions:
* `localStorage` is modelled as `Store`: an ordered association list of
  key/value string pairs plus a `liveQuota` parameter modelling the browser's
  own enforcement (a `setItem` that would exceed `liveQuota` bytes fails,
  modelling the thrown `QuotaExceededError` `DOMException`).
* JavaScript strings are modelled as Lean `String`s (`String.length` models
  `.length`; the sources only manipulate BMP text, so code units and
  codepoints agree).
* JavaScript floating-point arithmetic in the capacity tracker is idealized as
  exact rational arithmetic (`ℚ`), and `Math.floor(Math.log n / Math.log 1024)`
  as `Nat.log 1024 n`, which is the exact value of that floor.
* `JSON.stringify` for `Document`/`Category` records is implemented concretely
  (field order = object-literal insertion order in the document form component;
  `undefined` optional fields are skipped; strings escaped as JSON.stringify
  does).  `JSON.parse` is modelled by a parser recognizing exactly the
  serializer's grammar; parser failure models a thrown `SyntaxError`.
-/

namespace DocManager

/-- One entry of the modelled `localStorage`: a key/value pair of strings. -/
abbrev Entry := String × String

/-- Replace the value under a key, or append the pair if the key is absent
(the order-preserving update semantics of `localStorage.setItem`). -/
def upsert : List Entry → String → String → List Entry
  | [], k, v => [(k, v)]
  | (k', v') :: rest, k, v =>
    if k' = k then (k, v) :: rest else (k', v') :: upsert rest k v

/-- Total character count of all keys and values of an entry list. -/
def entriesSize (l : List Entry) : Nat :=
  (l.map (fun kv => kv.1.length + kv.2.length)).sum

/-- The modelled `localStorage`: its entries in insertion order, and the
browser's own byte quota governing when `setItem` throws
`QuotaExceededError` (a parameter of the environment, independent of the
application's 5 MiB estimate). -/
structure Store where
  entries : List Entry
  liveQuota : Nat
deriving Repr, DecidableEq

/-- `localStorage.getItem`. -/
def Store.getItem (s : Store) (k : String) : Option String :=
  (s.entries.find? (fun kv => kv.1 = k)).map (fun kv => kv.2)

/-- `localStorage.setItem`; `none` models a thrown `QuotaExceededError`
(the store is left unchanged in that case). -/
def Store.setItem (s : Store) (k v : String) : Option Store :=
  let newEntries := upsert s.entries k v
  if 2 * entriesSize newEntries ≤ s.liveQuota then
    some { s with entries := newEntries }
  else
    none

/-- `localStorage.removeItem`. -/
def Store.removeItem (s : Store) (k : String) : Store :=
  { s with entries := s.entries.filter (fun kv => ¬ (kv.1 = k)) }

/-! ### Capacity tracker (unnamed storage module) -/

/-- Storage key `"documents"`. -/
def DOCUMENTS_KEY : String := "documents"

/-- Storage key `"lastDeletedDocument"`. -/
def LAST_DELETED_DOCUMENT_KEY : String := "lastDeletedDocument"

/-- Storage key `"lastDeletedDocumentIndex"`. -/
def LAST_DELETED_DOCUMENT_INDEX_KEY : String := "lastDeletedDocumentIndex"

/-- Storage key `"categories"`. -/
def CATEGORIES_KEY : String := "categories"

/-- `LOCALSTORAGE_LIMIT = 5 * 1024 * 1024` (5 MB in bytes). -/
def LOCALSTORAGE_LIMIT : Nat := 5 * 1024 * 1024

/-- Result of `getLocalStorageUsage`. -/
structure StorageUsage where
  used : Nat
  available : Nat
  percentUsed : ℚ
deriving Repr, DecidableEq

/-- The `for` loop of `getLocalStorageUsage`: it guards with `if (key)`, so an
entry whose key is the empty string (falsy) contributes nothing. -/
def usageLoop : List Entry → Nat
  | [] => 0
  | (key, value) :: rest =>
    (if key = "" then 0 else key.length + value.length) + usageLoop rest

/-- `getLocalStorageUsage` from the unnamed storage module: sums character
counts of all keys and values (skipping falsy keys), converts to bytes at 2
bytes per UTF-16 character, and derives available bytes and percent used.
`Math.max(0, LIMIT - usedBytes)` is computed over `ℤ` then truncated to `ℕ`.
The float expression `(usedBytes / LOCALSTORAGE_LIMIT) * 100` is represented
by the kernel-reducible integer quotient `Rat.divInt (usedBytes * 100) LIMIT`
(the exact same rational value — `Batteries`' field operations on `ℚ` are
`@[irreducible]`; the equality with `used / QUOTA * 100` is proved in
`getLocalStorageUsage_spec`). -/
def getLocalStorageUsage (store : Store) : StorageUsage :=
  let totalSize := usageLoop store.entries
  let usedBytes := totalSize * 2
  let availableBytes := (max 0 ((LOCALSTORAGE_LIMIT : ℤ) - (usedBytes : ℤ))).toNat
  let percentUsed := Rat.divInt ((usedBytes : ℤ) * 100) (LOCALSTORAGE_LIMIT : ℤ)
  { used := usedBytes, available := availableBytes, percentUsed := percentUsed }

/-- `hasEnoughStorageSpace`: `dataSize <= available`. -/
def hasEnoughStorageSpace (dataSize : Nat) (store : Store) : Bool :=
  decide (dataSize ≤ (getLocalStorageUsage store).available)

/-- The unit table `["Bytes", "KB", "MB", "GB"]` of `formatBytes`. -/
def sizeUnits : List String := ["Bytes", "KB", "MB", "GB"]

/-- Render `c / 100` the way `Number.parseFloat((x).toFixed(2))` followed by
JavaScript number-to-string conversion does: at most two decimals, trailing
zeros (and a trailing decimal point) dropped. -/
def renderHundredths (c : Nat) : String :=
  let intPart := c / 100
  let frac := c % 100
  if frac = 0 then toString intPart
  else if frac % 10 = 0 then toString intPart ++ "." ++ toString (frac / 10)
  else toString intPart ++ "." ++ (if frac < 10 then "0" else "") ++ toString frac

/-- `formatBytes` from the unnamed storage module.  The floating-point
`Math.floor(Math.log bytes / Math.log 1024)` is modelled exactly as
`Nat.log 1024 bytes`; `toFixed(2)` as rounding to hundredths (round half
towards `+∞`, as `toFixed` does on exact values).  `sizes[i]` for `i ≥ 4` is
`undefined` in JavaScript and stringifies to `"undefined"`, modelled by
`List.getD` with default `"undefined"`. -/
def formatBytes (bytes : Nat) : String :=
  if bytes = 0 then "0 Bytes"
  else
    renderHundredths
      ((round ((bytes : ℚ) / ((1024 : ℚ) ^ Nat.log 1024 bytes) * 100) : ℤ).toNat)
    ++ " " ++ sizeUnits.getD (Nat.log 1024 bytes) "undefined"

/-! ### Documents, categories and their JSON codec -/

/-- The `Document` record (`src/lib/types.ts`, the variant with `fileContent`
used by the dashboard).  Optional fields are `Option`; field order is the
object-literal insertion order at the single construction site in the document
form component, which is the order `JSON.stringify` emits. -/
structure Document where
  id : String
  title : String
  category : String
  uploadDate : String
  expiryDate : Option String := none
  fileContent : Option String := none
  fileName : Option String := none
  fileType : Option String := none
  notes : Option String := none
deriving Repr, DecidableEq

/-- The `Category` record (`src/lib/types.ts`). -/
structure Category where
  category : String
  name : String
  color : String
deriving Repr, DecidableEq

/-- Lower-case hexadecimal digit, as emitted by `JSON.stringify` escapes. -/
def hexDigit (n : Nat) : Char :=
  if n < 10 then Char.ofNat (48 + n) else Char.ofNat (87 + n)

/-- Value of a lower-case hexadecimal digit character. -/
def hexVal (c : Char) : Option Nat :=
  if 48 ≤ c.toNat ∧ c.toNat ≤ 57 then some (c.toNat - 48)
  else if 97 ≤ c.toNat ∧ c.toNat ≤ 102 then some (c.toNat - 87)
  else none

/-- JSON escape of a single character, following `JSON.stringify`: `"` and `\`
get a backslash escape, the named escapes `\b \t \n \f \r` are used for
their characters, other control characters become `\u00xx`, and everything
else is emitted literally. -/
def escChar (c : Char) : List Char :=
  if c = '"' then ['\\', '"']
  else if c = '\\' then ['\\', '\\']
  else if c = Char.ofNat 8 then ['\\', 'b']
  else if c = Char.ofNat 9 then ['\\', 't']
  else if c = Char.ofNat 10 then ['\\', 'n']
  else if c = Char.ofNat 12 then ['\\', 'f']
  else if c = Char.ofNat 13 then ['\\', 'r']
  else if c.toNat < 32 then ['\\', 'u', '0', '0', hexDigit (c.toNat / 16), hexDigit (c.toNat % 16)]
  else [c]

/-- JSON escape of a character sequence. -/
def escapeChars : List Char → List Char
  | [] => []
  | c :: cs => escChar c ++ escapeChars cs

/-- A JSON string literal (with quotes) for `s`. -/
def quoteJSON (s : String) : String :=
  "\"" ++ String.mk (escapeChars s.data) ++ "\""

/-- One `"key":"value"` member of a serialized object. -/
def jsonMember (k v : String) : String :=
  quoteJSON k ++ ":" ++ quoteJSON v

/-- An optional member: `undefined` fields are skipped by `JSON.stringify`,
present ones are emitted preceded by the separating comma (all optional
fields of `Document` come after mandatory ones, so a comma always precedes). -/
def jsonMemberOpt (k : String) (v : Option String) : String :=
  match v with
  | none => ""
  | some s => "," ++ jsonMember k s

/-- `JSON.stringify` of one `Document`. -/
def serializeDocument (d : Document) : String :=
  "\x7b" ++ jsonMember "id" d.id
  ++ "," ++ jsonMember "title" d.title
  ++ "," ++ jsonMember "category" d.category
  ++ "," ++ jsonMember "uploadDate" d.uploadDate
  ++ jsonMemberOpt "expiryDate" d.expiryDate
  ++ jsonMemberOpt "fileContent" d.fileContent
  ++ jsonMemberOpt "fileName" d.fileName
  ++ jsonMemberOpt "fileType" d.fileType
  ++ jsonMemberOpt "notes" d.notes
  ++ "\x7d"

/-- `JSON.stringify` of a `Document` array. -/
def serializeDocuments (documents : List Document) : String :=
  "[" ++ String.intercalate "," (documents.map serializeDocument) ++ "]"

/-- `JSON.stringify` of one `Category`. -/
def serializeCategory (c : Category) : String :=
  "\x7b" ++ jsonMember "category" c.category
  ++ "," ++ jsonMember "name" c.name
  ++ "," ++ jsonMember "color" c.color
  ++ "\x7d"

/-- `JSON.stringify` of a `Category` array. -/
def serializeCategories (categories : List Category) : String :=
  "[" ++ String.intercalate "," (categories.map serializeCategory) ++ "]"

/-- Match a literal character sequence at the head of the input, returning the
remainder. -/
def matchLit : List Char → List Char → Option (List Char)
  | [], cs => some cs
  | _ :: _, [] => none
  | p :: ps, c :: cs => if c = p then matchLit ps cs else none

/-- Parse the body of a JSON string literal (the opening quote already
consumed), undoing the escapes `escapeChars` produces; returns the decoded
characters and the input after the closing quote. -/
def parseJString : List Char → Option (List Char × List Char)
  | [] => none
  | '"' :: rest => some ([], rest)
  | '\\' :: 'u' :: h1 :: h2 :: h3 :: h4 :: rest =>
    match hexVal h1, hexVal h2, hexVal h3, hexVal h4 with
    | some d1, some d2, some d3, some d4 =>
      (parseJString rest).map
        (fun p => (Char.ofNat (4096 * d1 + 256 * d2 + 16 * d3 + d4) :: p.1, p.2))
    | _, _, _, _ => none
  | '\\' :: e :: rest =>
    (if e = '"' then some '"'
     else if e = '\\' then some '\\'
     else if e = 'b' then some (Char.ofNat 8)
     else if e = 't' then some (Char.ofNat 9)
     else if e = 'n' then some (Char.ofNat 10)
     else if e = 'f' then some (Char.ofNat 12)
     else if e = 'r' then some (Char.ofNat 13)
     else none).bind
      (fun c => (parseJString rest).map (fun p => (c :: p.1, p.2)))
  | c :: rest =>
    (parseJString rest).map (fun p => (c :: p.1, p.2))

/-- Parse a mandatory `"key":"value"` member, preceded by the given separator
characters (the opening brace for the first member, a comma otherwise). -/
def parseMember (sep : String) (key : String) (cs : List Char) :
    Option (String × List Char) :=
  (matchLit (sep ++ quoteJSON key ++ ":\"").data cs).bind
    (fun cs => (parseJString cs).map (fun p => (String.mk p.1, p.2)))

/-- Parse an optional member (emitted by `jsonMemberOpt`): when the
comma-key-colon-quote pattern is absent the input is unchanged. -/
def parseMemberOpt (key : String) (cs : List Char) :
    Option String × List Char :=
  match (matchLit ("," ++ quoteJSON key ++ ":\"").data cs).bind parseJString with
  | some (v, rest) => (some (String.mk v), rest)
  | none => (none, cs)

/-- Parse one serialized `Document`, returning it and the remaining input. -/
def parseDocument (cs : List Char) : Option (Document × List Char) := do
  let (id, cs) ← parseMember "\x7b" "id" cs
  let (title, cs) ← parseMember "," "title" cs
  let (category, cs) ← parseMember "," "category" cs
  let (uploadDate, cs) ← parseMember "," "uploadDate" cs
  let (expiryDate, cs) := parseMemberOpt "expiryDate" cs
  let (fileContent, cs) := parseMemberOpt "fileContent" cs
  let (fileName, cs) := parseMemberOpt "fileName" cs
  let (fileType, cs) := parseMemberOpt "fileType" cs
  let (notes, cs) := parseMemberOpt "notes" cs
  let cs ← matchLit ['\x7d'] cs
  pure ({ id := id, title := title, category := category, uploadDate := uploadDate,
          expiryDate := expiryDate, fileContent := fileContent, fileName := fileName,
          fileType := fileType, notes := notes }, cs)

/-- Parse a whole string as a single serialized `Document` (as `JSON.parse`
does for the undo ledger slot); `none` models a thrown `SyntaxError`. -/
def parseDocumentString (s : String) : Option Document :=
  match parseDocument s.data with
  | some (d, []) => some d
  | _ => none

/-- Parse the comma-separated documents after the first one (fueled; the fuel
is always instantiated with the input length, which bounds the number of
remaining documents). -/
def parseDocsRest : Nat → List Char → Option (List Document × List Char)
  | _, ']' :: rest => some ([], rest)
  | fuel + 1, ',' :: cs =>
    (parseDocument cs).bind
      (fun p => (parseDocsRest fuel p.2).map (fun q => (p.1 :: q.1, q.2)))
  | _, _ => none

/-- Parse a whole string as a serialized `Document` array (as `JSON.parse`
does for the `documents` key); `none` models a thrown `SyntaxError`. -/
def parseDocumentsString (s : String) : Option (List Document) :=
  match s.data with
  | '[' :: ']' :: rest => if rest = [] then some [] else none
  | '[' :: cs =>
    match (parseDocument cs).bind
        (fun p => (parseDocsRest cs.length p.2).map (fun q => (p.1 :: q.1, q.2))) with
    | some (ds, []) => some ds
    | _ => none
  | _ => none

/-! ### Number/string conversions used by the undo ledger -/

/-- JavaScript `Number.prototype.toString` for an integer value: the decimal
representation, with a leading minus sign for negatives (`Int.repr`). -/
def intToStringJS (i : Int) : String := i.repr

/-- Decimal digit test. -/
def isDigitChar (c : Char) : Bool :=
  decide (48 ≤ c.toNat ∧ c.toNat ≤ 57)

/-- Value of the longest leading run of decimal digits; `none` when there is
no leading digit (`parseInt` returning `NaN`). -/
def digitsPrefixVal (cs : List Char) : Option Nat :=
  let ds := cs.takeWhile isDigitChar
  if ds = [] then none
  else some (ds.foldl (fun a c => a * 10 + (c.toNat - 48)) 0)

/-- JavaScript `Number.parseInt(s, 10)`: skip leading spaces, optional sign,
longest digit prefix; `none` models `NaN`. -/
def parseIntJS (s : String) : Option Int :=
  match s.data.dropWhile (fun c => c = ' ') with
  | '-' :: cs => (digitsPrefixVal cs).map (fun n => -(n : Int))
  | '+' :: cs => (digitsPrefixVal cs).map (fun n => (n : Int))
  | cs => (digitsPrefixVal cs).map (fun n => (n : Int))

/-! ### Document store operations (unnamed storage module) -/

/-- The `{ success: boolean; error?: string }` result shape. -/
structure SaveResult where
  success : Bool
  error : Option String := none
deriving Repr, DecidableEq

/-- `estimateDocumentSize`: length of the JSON string times 2 (UTF-16 bytes
per character). -/
def estimateDocumentSize (document : Document) : Nat :=
  (serializeDocument document).length * 2

/-- `saveDocuments`: serialize the full collection, fail fast with a
capacity-exceeded error when the pre-check says there is not enough space,
otherwise attempt the write; a `QuotaExceededError` thrown by the store
itself is caught and turned into the distinct storage-full error. -/
def saveDocuments (documents : List Document) (store : Store) :
    SaveResult × Store :=
  let jsonString := serializeDocuments documents
  let dataSize := jsonString.length * 2
  if hasEnoughStorageSpace dataSize store = false then
    ({ success := false
       error := some ("Not enough storage space. Need " ++ formatBytes dataSize ++
         ", but only " ++ formatBytes (getLocalStorageUsage store).available ++
         " available.") }, store)
  else
    match store.setItem DOCUMENTS_KEY jsonString with
    | some s => ({ success := true }, s)
    | none =>
      ({ success := false
         error := some "Storage full. Please delete some documents to free up space." },
       store)

/-- `loadDocuments` from the unnamed storage module: no `try`/`catch`, so a
corrupt persisted value makes `JSON.parse` throw a `SyntaxError` that
propagates to the caller (modelled by `Except.error`); an absent or empty
(falsy) value yields the empty collection. -/
def loadDocumentsUnnamed (store : Store) : Except String (List Document) :=
  match store.getItem DOCUMENTS_KEY with
  | none => .ok []
  | some s =>
    if s = "" then .ok []
    else
      match parseDocumentsString s with
      | some ds => .ok ds
      | none => .error "SyntaxError: Unexpected token in JSON"

/-- `loadDocuments` from `src/lib/storage-utils.ts` (the per-user-namespaced
variant): the `try`/`catch` turns a `JSON.parse` failure into the empty
collection, so this variant is exception-free.  The generated user id is a
parameter (`getUserId` reads or lazily creates it under a well-known key). -/
def loadDocumentsNamespaced (store : Store) (userId : String) : List Document :=
  match store.getItem ("documents_" ++ userId) with
  | none => []
  | some s =>
    if s = "" then []
    else
      match parseDocumentsString s with
      | some ds => ds
      | none => []

/-- `saveCategories`: no capacity pre-check; a `QuotaExceededError` thrown by
the store is caught and reported as a failure result. -/
def saveCategories (categories : List Category) (store : Store) :
    SaveResult × Store :=
  let jsonString := serializeCategories categories
  match store.setItem CATEGORIES_KEY jsonString with
  | some s => ({ success := true }, s)
  | none =>
    ({ success := false
       error := some "Storage full. Please delete some documents to free up space." },
     store)

/-! ### Undo ledger operations (unnamed storage module) -/

/-- `saveLastDeletedDocument`: two raw `setItem` calls with no `try`/`catch`.
The `Bool` is `false` when one of them threw (an uncaught
`QuotaExceededError`); the returned store reflects whatever writes succeeded
before the throw. -/
def saveLastDeletedDocument (store : Store) (document : Document) (index : Int) :
    Store × Bool :=
  match store.setItem LAST_DELETED_DOCUMENT_KEY (serializeDocument document) with
  | none => (store, false)
  | some s1 =>
    match s1.setItem LAST_DELETED_DOCUMENT_INDEX_KEY (intToStringJS index) with
    | none => (s1, false)
    | some s2 => (s2, true)

/-- `loadLastDeletedDocument`: absent or empty (falsy) slot yields `null`.
A stored value that is not in the serializer's image yields `none` as well
(JavaScript would throw a `SyntaxError` there; no claim concerns a corrupted
ledger slot, and the application only ever stores `serializeDocument`
output in it). -/
def loadLastDeletedDocument (store : Store) : Option Document :=
  match store.getItem LAST_DELETED_DOCUMENT_KEY with
  | none => none
  | some s => if s = "" then none else parseDocumentString s

/-- `loadLastDeletedDocumentIndex`: absent or empty slot yields `-1`;
otherwise `Number.parseInt(stored, 10)`, whose `NaN` outcome is `none`. -/
def loadLastDeletedDocumentIndex (store : Store) : Option Int :=
  match store.getItem LAST_DELETED_DOCUMENT_INDEX_KEY with
  | none => some (-1)
  | some s => if s = "" then some (-1) else parseIntJS s

/-- `clearLastDeletedDocument`: remove both ledger keys. -/
def clearLastDeletedDocument (store : Store) : Store :=
  (store.removeItem LAST_DELETED_DOCUMENT_KEY).removeItem
    LAST_DELETED_DOCUMENT_INDEX_KEY

/-- `hasLastDeletedDocument`. -/
def hasLastDeletedDocument (store : Store) : Bool :=
  (store.getItem LAST_DELETED_DOCUMENT_KEY).isSome

/-! ### File type detection (`src/lib/file-utils.ts`) -/

/-- Model of `String.prototype.startsWith`. -/
def startsWithJS (s p : String) : Bool :=
  (matchLit p.data s.data).isSome

/-- Character class `[a-zA-Z0-9]` of the MIME regex. -/
def isAlnumJS (c : Char) : Bool :=
  decide ((97 ≤ c.toNat ∧ c.toNat ≤ 122) ∨ (65 ≤ c.toNat ∧ c.toNat ≤ 90) ∨
    (48 ≤ c.toNat ∧ c.toNat ≤ 57))

/-- Character class `[a-zA-Z0-9-.+]` of the MIME regex. -/
def isMimeSubChar (c : Char) : Bool :=
  isAlnumJS c || decide (c = '-' ∨ c = '.' ∨ c = '+')

/-- Try the regex `data:([a-zA-Z0-9]+\/[a-zA-Z0-9-.+]+);base64` anchored at
the current position, returning capture group 1.  Greedy matching of the two
character classes is deterministic here because `/` and `;` are outside both
classes, so maximal munch is equivalent to the backtracking semantics. -/
def mimeMatchAt (cs : List Char) : Option (List Char) := do
  let cs1 ← matchLit ['d', 'a', 't', 'a', ':'] cs
  let t := cs1.takeWhile isAlnumJS
  if t = [] then none
  else do
    let cs2 ← matchLit ['/'] (cs1.drop t.length)
    let u := cs2.takeWhile isMimeSubChar
    if u = [] then none
    else do
      let _ ← matchLit [';', 'b', 'a', 's', 'e', '6', '4'] (cs2.drop u.length)
      pure (t ++ '/' :: u)

/-- Unanchored regex search (`String.prototype.match`): try every start
position from the left. -/
def mimeSearch : List Char → Option (List Char)
  | [] => none
  | c :: cs =>
    match mimeMatchAt (c :: cs) with
    | some m => some m
    | none => mimeSearch cs

/-- Model of `String.prototype.split` with a single-character separator. -/
def splitOnCharJS (sep : Char) : List Char → List (List Char)
  | [] => [[]]
  | c :: rest =>
    if c = sep then [] :: splitOnCharJS sep rest
    else
      match splitOnCharJS sep rest with
      | g :: gs => (c :: g) :: gs
      | [] => [[c]]

/-- Model of `String.prototype.toLowerCase` on one character (ASCII range;
the extension table only contains ASCII). -/
def toLowerJS (c : Char) : Char :=
  if 65 ≤ c.toNat ∧ c.toNat ≤ 90 then Char.ofNat (c.toNat + 32) else c

/-- The lower-cased last `.`-separated component of a reference string
(`file.split(".").pop()?.toLowerCase()`). -/
def extOf (file : String) : String :=
  String.mk (((splitOnCharJS '.' file.data).getLastD []).map toLowerJS)

/-- The known-extension table of the `switch` in `getFileType` (each case
label paired with the MIME type it returns). -/
def extTable : List (String × String) :=
  [("pdf", "application/pdf"),
   ("jpg", "image/jpeg"),
   ("jpeg", "image/jpeg"),
   ("png", "image/png"),
   ("doc", "application/msword"),
   ("docx", "application/vnd.openxmlformats-officedocument.wordprocessingml.document"),
   ("xls", "application/vnd.ms-excel"),
   ("xlsx", "application/vnd.openxmlformats-officedocument.spreadsheetml.sheet")]

/-- `getFileType` for a string argument: for `data:` payloads, the embedded
MIME type if the regex matches and `"unknown/unknown"` otherwise; for plain
reference strings, a known-extension lookup on the lower-cased last
`.`-separated component, defaulting to `"application/octet-stream"`. -/
def getFileType (file : String) : String :=
  if startsWithJS file "data:" then
    match mimeSearch file.data with
    | some m => String.mk m
    | none => "unknown/unknown"
  else
    if extOf file = "pdf" then "application/pdf"
    else if extOf file = "jpg" ∨ extOf file = "jpeg" then "image/jpeg"
    else if extOf file = "png" then "image/png"
    else if extOf file = "doc" then "application/msword"
    else if extOf file = "docx" then
      "application/vnd.openxmlformats-officedocument.wordprocessingml.document"
    else if extOf file = "xls" then "application/vnd.ms-excel"
    else if extOf file = "xlsx" then
      "application/vnd.openxmlformats-officedocument.spreadsheetml.sheet"
    else "application/octet-stream"

/-! ### Catalog service: the dashboard component's orchestration handlers

The dashboard's React state is modelled by `DashState`.  Pure presentation
state (dialog open flags for upload, dropped file, search query, category
filter, loading flag) has no effect on the storage/undo logic and is omitted;
`deleteDialogOpen` and `storageWarning` are kept because the delete handler
writes them.  Toast notifications are modelled by each handler's outcome
value where a claim depends on them. -/

/-- The dashboard component state relevant to the storage/undo subsystem. -/
structure DashState where
  documents : List Document
  categories : List Category
  store : Store
  storageAvailable : Bool
  hasDeletedDoc : Bool
  documentToDelete : Option Document
  deleteDialogOpen : Bool
  storageWarning : Option String
deriving Repr, DecidableEq

/-- `toFixed(1)` rendering of a non-negative rational (used by the storage
warning message). -/
def renderTenths (q : ℚ) : String :=
  let n := (round (q * 10) : ℤ).toNat
  toString (n / 10) ++ "." ++ toString (n % 10)

/-- The storage warning text built from a usage snapshot. -/
def storageWarningMsg (u : StorageUsage) : String :=
  "Storage is " ++ renderTenths u.percentUsed ++ "% full (" ++ formatBytes u.used ++
  " used, " ++ formatBytes u.available ++ " available). Consider deleting unused documents."

/-- `findIndex` with JavaScript's `-1`-for-missing convention. -/
def findIndexJS (p : Document → Bool) (l : List Document) : Int :=
  match l.findIdx? p with
  | some n => (n : Int)
  | none => -1

/-- `handleAddDocument`: estimate the size of the single document, reject on
the capacity pre-check, otherwise append, persist, and on persist failure
revert the documents state to its pre-append value. -/
def handleAddDocument (document : Document) (st : DashState) : DashState :=
  let documentSize := estimateDocumentSize document
  if hasEnoughStorageSpace documentSize st.store = false then st
  else
    let updatedDocuments := st.documents ++ [document]
    if st.storageAvailable then
      let r := saveDocuments updatedDocuments st.store
      if r.1.success then { st with documents := updatedDocuments, store := r.2 }
      else { st with documents := st.documents, store := r.2 }
    else { st with documents := updatedDocuments }

/-- `handleUpdateDocument`: replace in place by id; when the replacement grows
the document, pre-check the size delta; persist and roll back the documents
state on persist failure. -/
def handleUpdateDocument (updatedDoc : Document) (st : DashState) : DashState :=
  let updatedDocuments :=
    st.documents.map (fun doc => if doc.id = updatedDoc.id then updatedDoc else doc)
  let oldDoc := st.documents.find? (fun doc => doc.id = updatedDoc.id)
  let reject :=
    match oldDoc with
    | some od =>
      let oldSize := estimateDocumentSize od
      let newSize := estimateDocumentSize updatedDoc
      decide (newSize > oldSize) && !hasEnoughStorageSpace (newSize - oldSize) st.store
    | none => false
  if reject then st
  else if st.storageAvailable then
    let r := saveDocuments updatedDocuments st.store
    if r.1.success then { st with documents := updatedDocuments, store := r.2 }
    else { st with documents := st.documents, store := r.2 }
  else { st with documents := updatedDocuments }

/-- `handleAddCategory`: append, persist, revert the categories state on
persist failure. -/
def handleAddCategory (category : Category) (st : DashState) : DashState :=
  let updatedCategories := st.categories ++ [category]
  if st.storageAvailable then
    let r := saveCategories updatedCategories st.store
    if r.1.success then { st with categories := updatedCategories, store := r.2 }
    else { st with categories := st.categories, store := r.2 }
  else { st with categories := updatedCategories }

/-- `initiateDeleteDocument`: record the pending target and open the
confirmation dialog. -/
def initiateDeleteDocument (document : Document) (st : DashState) : DashState :=
  { st with documentToDelete := some document, deleteDialogOpen := true }

/-- `handleDeleteDocument` (the confirmed deletion): resolve the index in the
authoritative collection, record the undo ledger entry, remove the document,
persist (a failed persist is only logged), and recompute the storage warning.
The second component is `some msg` when an uncaught `QuotaExceededError`
escaped from the raw ledger writes, aborting the handler at that point. -/
def handleDeleteDocument (st : DashState) : DashState × Option String :=
  match st.documentToDelete with
  | none => (st, none)
  | some documentToDelete =>
    let st := { st with deleteDialogOpen := false }
    let index := findIndexJS (fun doc => doc.id = documentToDelete.id) st.documents
    let step2 : DashState × Bool :=
      if st.storageAvailable ∧ index ≠ -1 then
        match saveLastDeletedDocument st.store documentToDelete index with
        | (store', true) => ({ st with store := store', hasDeletedDoc := true }, true)
        | (store', false) => ({ st with store := store' }, false)
      else (st, true)
    match step2 with
    | (st, false) => (st, some "QuotaExceededError")
    | (st, true) =>
      let updatedDocuments :=
        st.documents.filter (fun doc => ¬ (doc.id = documentToDelete.id))
      let st := { st with documents := updatedDocuments }
      let st :=
        if st.storageAvailable then
          let r := saveDocuments updatedDocuments st.store
          let st := { st with store := r.2 }
          let u := getLocalStorageUsage st.store
          if u.percentUsed > 80 then
            { st with storageWarning := some (storageWarningMsg u) }
          else { st with storageWarning := none }
        else st
      ({ st with documentToDelete := none }, none)

/-- The user-visible outcome of `handleUndoDelete`, one constructor per exit
path of the handler (silent return when storage is unavailable, the
Undo-failed toast when the ledger is empty, the Storage-Full toast on the
capacity pre-check, the Storage-Error toast on persist failure, and the
restored-confirmation toast). -/
inductive UndoOutcome where
  | notAvailable
  | undoFailed
  | storageFull
  | storageError
  | restored
deriving Repr, DecidableEq

/-- `handleUndoDelete`: read the ledger, fail when it is empty, pre-check
capacity for the recorded document, clear the ledger *first*, then insert the
document at its original index when still valid and append otherwise, then
persist; on persist failure keep the previous documents state (the ledger
stays cleared). -/
def handleUndoDelete (st : DashState) : DashState × UndoOutcome :=
  if st.storageAvailable = false then (st, .notAvailable)
  else
    let lastDeletedDocument := loadLastDeletedDocument st.store
    let lastDeletedIndex := loadLastDeletedDocumentIndex st.store
    match lastDeletedDocument with
    | none => (st, .undoFailed)
    | some d =>
      let documentSize := estimateDocumentSize d
      if hasEnoughStorageSpace documentSize st.store = false then (st, .storageFull)
      else
        let st := { st with store := clearLastDeletedDocument st.store,
                            hasDeletedDoc := false }
        let prevDocuments := st.documents
        let newDocuments :=
          match lastDeletedIndex with
          | some i =>
            if 0 ≤ i ∧ i ≤ (prevDocuments.length : Int) then
              prevDocuments.insertIdx i.toNat d
            else prevDocuments ++ [d]
          | none => prevDocuments ++ [d]
        if st.storageAvailable then
          let r := saveDocuments newDocuments st.store
          if r.1.success then
            ({ st with documents := newDocuments, store := r.2 }, .restored)
          else ({ st with store := r.2 }, .storageError)
        else ({ st with documents := newDocuments }, .restored)

/-- The delete scenario as triggered from the UI: select the document in the
confirmation dialog, then confirm. -/
def deleteDoc (document : Document) (st : DashState) : DashState × Option String :=
  handleDeleteDocument (initiateDeleteDocument document st)

/-! ### General helper lemmas -/

theorem matchLit_append (p t : List Char) : matchLit p (p ++ t) = some t := by
  induction p with
  | nil => rfl
  | cons c cs ih => simp [matchLit, ih]

theorem takeWhile_append_stop (p : Char → Bool) (l : List Char) (c : Char)
    (r : List Char) (hl : ∀ x ∈ l, p x = true) (hc : p c = false) :
    (l ++ c :: r).takeWhile p = l := by
  induction l with
  | nil => simp [List.takeWhile, hc]
  | cons x xs ih =>
    have hx : p x = true := hl x (List.mem_cons_self x xs)
    simp only [List.cons_append, List.takeWhile_cons, hx, if_true]
    rw [ih (fun y hy => hl y (List.mem_cons_of_mem x hy))]

theorem data_ne_nil_of_ne_empty (s : String) (h : s ≠ "") : s.data ≠ [] := by
  intro hd
  exact h (String.ext (hd.trans rfl))

/-! ### JSON codec round trip -/

theorem hexVal_hexDigit : ∀ d : Nat, d < 16 → hexVal (hexDigit d) = some d := by decide

theorem parseJString_escape (cs rest : List Char) :
    parseJString (escapeChars cs ++ '"' :: rest) = some (cs, rest) := by
  induction cs with
  | nil => rfl
  | cons c cs ih =>
    show parseJString ((escChar c ++ escapeChars cs) ++ '"' :: rest) = some (c :: cs, rest)
    rw [List.append_assoc]
    by_cases h1 : c = '"'
    · subst h1; simp [escChar, parseJString, ih]
    · by_cases h2 : c = '\\'
      · subst h2; simp [escChar, parseJString, ih]
      · by_cases h3 : c = Char.ofNat 8
        · subst h3; simp [escChar, parseJString, ih]
        · by_cases h4 : c = Char.ofNat 9
          · subst h4; simp [escChar, parseJString, ih]
          · by_cases h5 : c = Char.ofNat 10
            · subst h5; simp [escChar, parseJString, ih]
            · by_cases h6 : c = Char.ofNat 12
              · subst h6; simp [escChar, parseJString, ih]
              · by_cases h7 : c = Char.ofNat 13
                · subst h7; simp [escChar, parseJString, ih]
                · by_cases h8 : c.toNat < 32
                  · have e0 : hexVal '0' = some 0 := rfl
                    have e1 : hexVal (hexDigit (c.toNat / 16)) = some (c.toNat / 16) :=
                      hexVal_hexDigit _ (by omega)
                    have e2 : hexVal (hexDigit (c.toNat % 16)) = some (c.toNat % 16) :=
                      hexVal_hexDigit _ (Nat.mod_lt _ (by norm_num))
                    simp [escChar, h1, h2, h3, h4, h5, h6, h7, h8, parseJString, e0, e1, e2,
                      ih, Nat.div_add_mod, Char.ofNat_toNat]
                  · simp [escChar, h1, h2, h3, h4, h5, h6, h7, h8, parseJString, ih]


theorem data_mk (l : List Char) : (String.mk l).data = l := rfl
theorem mk_data (s : String) : String.mk s.data = s := rfl
theorem data_lb : ("\x7b" : String).data = ['\x7b'] := rfl
theorem data_rb : ("\x7d" : String).data = ['\x7d'] := rfl
theorem data_qu : ("\"" : String).data = ['"'] := rfl
theorem data_co : (":" : String).data = [':'] := rfl
theorem data_cm : ("," : String).data = [','] := rfl
theorem data_key_id : ("id" : String).data = ['i', 'd'] := rfl
theorem data_key_title : ("title" : String).data = ['t', 'i', 't', 'l', 'e'] := rfl
theorem data_key_category : ("category" : String).data =
    ['c', 'a', 't', 'e', 'g', 'o', 'r', 'y'] := rfl
theorem data_key_uploadDate : ("uploadDate" : String).data =
    ['u', 'p', 'l', 'o', 'a', 'd', 'D', 'a', 't', 'e'] := rfl
theorem data_key_expiryDate : ("expiryDate" : String).data =
    ['e', 'x', 'p', 'i', 'r', 'y', 'D', 'a', 't', 'e'] := rfl
theorem data_key_fileContent : ("fileContent" : String).data =
    ['f', 'i', 'l', 'e', 'C', 'o', 'n', 't', 'e', 'n', 't'] := rfl
theorem data_key_fileName : ("fileName" : String).data =
    ['f', 'i', 'l', 'e', 'N', 'a', 'm', 'e'] := rfl
theorem data_key_fileType : ("fileType" : String).data =
    ['f', 'i', 'l', 'e', 'T', 'y', 'p', 'e'] := rfl
theorem data_key_notes : ("notes" : String).data = ['n', 'o', 't', 'e', 's'] := rfl

theorem jsonMemberOpt_none_data (k : String) : (jsonMemberOpt k none).data = [] := rfl

theorem jsonMemberOpt_some_data (k s : String) :
    (jsonMemberOpt k (some s)).data =
      ("," ++ quoteJSON k ++ ":\"").data ++ (escapeChars s.data ++ ['"']) := by
  simp [jsonMemberOpt, jsonMember, quoteJSON, String.data_append, data_mk,
    List.append_assoc]

theorem patData_expiryDate : ("," ++ quoteJSON "expiryDate" ++ ":\"").data =
    [',', '"', 'e', 'x', 'p', 'i', 'r', 'y', 'D', 'a', 't', 'e', '"', ':', '"'] := rfl

theorem patData_fileContent : ("," ++ quoteJSON "fileContent" ++ ":\"").data =
    [',', '"', 'f', 'i', 'l', 'e', 'C', 'o', 'n', 't', 'e', 'n', 't', '"', ':', '"'] := rfl

theorem patData_fileName : ("," ++ quoteJSON "fileName" ++ ":\"").data =
    [',', '"', 'f', 'i', 'l', 'e', 'N', 'a', 'm', 'e', '"', ':', '"'] := rfl

theorem patData_fileType : ("," ++ quoteJSON "fileType" ++ ":\"").data =
    [',', '"', 'f', 'i', 'l', 'e', 'T', 'y', 'p', 'e', '"', ':', '"'] := rfl

theorem patData_notes : ("," ++ quoteJSON "notes" ++ ":\"").data =
    [',', '"', 'n', 'o', 't', 'e', 's', '"', ':', '"'] := rfl

theorem parseMember_seg (sep key v : String) (tail : List Char) :
    parseMember sep key
      ((sep ++ quoteJSON key ++ ":\"").data ++ (escapeChars v.data ++ '"' :: tail)) =
      some (v, tail) := by
  rw [parseMember, matchLit_append]
  simp [parseJString_escape, mk_data]

theorem parseMemberOpt_seg (key s : String) (tail : List Char) :
    parseMemberOpt key
      (("," ++ quoteJSON key ++ ":\"").data ++ (escapeChars s.data ++ '"' :: tail)) =
      (some s, tail) := by
  rw [parseMemberOpt, matchLit_append]
  simp [parseJString_escape, mk_data]

theorem parseMemberOpt_none (key : String) (cs : List Char)
    (h : matchLit ("," ++ quoteJSON key ++ ":\"").data cs = none) :
    parseMemberOpt key cs = (none, cs) := by
  simp only [parseMemberOpt]
  rw [h]
  rfl

theorem parseTail_notes (n : Option String) (rest : List Char) :
    parseMemberOpt "notes" ((jsonMemberOpt "notes" n).data ++ '\x7d' :: rest) =
      (n, '\x7d' :: rest) := by
  cases n with
  | none =>
    rw [jsonMemberOpt_none_data, List.nil_append]
    exact parseMemberOpt_none _ _ (by rw [patData_notes]; simp [matchLit])
  | some s =>
    rw [jsonMemberOpt_some_data, List.append_assoc]
    simp only [List.cons_append, List.nil_append, List.append_assoc]
    exact parseMemberOpt_seg "notes" s _

theorem parseTail_fileType (ft n : Option String) (rest : List Char) :
    parseMemberOpt "fileType" ((jsonMemberOpt "fileType" ft).data ++
        ((jsonMemberOpt "notes" n).data ++ '\x7d' :: rest)) =
      (ft, (jsonMemberOpt "notes" n).data ++ '\x7d' :: rest) := by
  cases ft with
  | none =>
    rw [jsonMemberOpt_none_data, List.nil_append]
    refine parseMemberOpt_none _ _ ?_
    cases n with
    | none =>
      rw [jsonMemberOpt_none_data, List.nil_append, patData_fileType]
      simp [matchLit]
    | some s =>
      rw [jsonMemberOpt_some_data, patData_notes, patData_fileType]
      simp [matchLit]
  | some s =>
    rw [jsonMemberOpt_some_data, List.append_assoc]
    simp only [List.cons_append, List.nil_append, List.append_assoc]
    exact parseMemberOpt_seg "fileType" s _

theorem parseTail_fileName (fn ft n : Option String) (rest : List Char) :
    parseMemberOpt "fileName" ((jsonMemberOpt "fileName" fn).data ++
        ((jsonMemberOpt "fileType" ft).data ++
          ((jsonMemberOpt "notes" n).data ++ '\x7d' :: rest))) =
      (fn, (jsonMemberOpt "fileType" ft).data ++
        ((jsonMemberOpt "notes" n).data ++ '\x7d' :: rest)) := by
  cases fn with
  | none =>
    rw [jsonMemberOpt_none_data, List.nil_append]
    refine parseMemberOpt_none _ _ ?_
    cases ft <;> cases n <;>
      simp [jsonMemberOpt_none_data, jsonMemberOpt_some_data, patData_fileName,
        patData_fileType, patData_notes, matchLit, List.append_assoc]
  | some s =>
    rw [jsonMemberOpt_some_data, List.append_assoc]
    simp only [List.cons_append, List.nil_append, List.append_assoc]
    exact parseMemberOpt_seg "fileName" s _

theorem parseTail_fileContent (fc fn ft n : Option String) (rest : List Char) :
    parseMemberOpt "fileContent" ((jsonMemberOpt "fileContent" fc).data ++
        ((jsonMemberOpt "fileName" fn).data ++
          ((jsonMemberOpt "fileType" ft).data ++
            ((jsonMemberOpt "notes" n).data ++ '\x7d' :: rest)))) =
      (fc, (jsonMemberOpt "fileName" fn).data ++
        ((jsonMemberOpt "fileType" ft).data ++
          ((jsonMemberOpt "notes" n).data ++ '\x7d' :: rest))) := by
  cases fc with
  | none =>
    rw [jsonMemberOpt_none_data, List.nil_append]
    refine parseMemberOpt_none _ _ ?_
    cases fn <;> cases ft <;> cases n <;>
      simp [jsonMemberOpt_none_data, jsonMemberOpt_some_data, patData_fileContent,
        patData_fileName, patData_fileType, patData_notes, matchLit, List.append_assoc]
  | some s =>
    rw [jsonMemberOpt_some_data, List.append_assoc]
    simp only [List.cons_append, List.nil_append, List.append_assoc]
    exact parseMemberOpt_seg "fileContent" s _

theorem parseTail_expiryDate (e fc fn ft n : Option String) (rest : List Char) :
    parseMemberOpt "expiryDate" ((jsonMemberOpt "expiryDate" e).data ++
        ((jsonMemberOpt "fileContent" fc).data ++
          ((jsonMemberOpt "fileName" fn).data ++
            ((jsonMemberOpt "fileType" ft).data ++
              ((jsonMemberOpt "notes" n).data ++ '\x7d' :: rest))))) =
      (e, (jsonMemberOpt "fileContent" fc).data ++
        ((jsonMemberOpt "fileName" fn).data ++
          ((jsonMemberOpt "fileType" ft).data ++
            ((jsonMemberOpt "notes" n).data ++ '\x7d' :: rest)))) := by
  cases e with
  | none =>
    rw [jsonMemberOpt_none_data, List.nil_append]
    refine parseMemberOpt_none _ _ ?_
    cases fc <;> cases fn <;> cases ft <;> cases n <;>
      simp [jsonMemberOpt_none_data, jsonMemberOpt_some_data, patData_expiryDate,
        patData_fileContent, patData_fileName, patData_fileType, patData_notes,
        matchLit, List.append_assoc]
  | some s =>
    rw [jsonMemberOpt_some_data, List.append_assoc]
    simp only [List.cons_append, List.nil_append, List.append_assoc]
    exact parseMemberOpt_seg "expiryDate" s _

theorem serializeDocument_decomp (d : Document) (rest : List Char) :
    (serializeDocument d).data ++ rest =
      ("\x7b" ++ quoteJSON "id" ++ ":\"").data ++ (escapeChars d.id.data ++ '"' :: (("," ++ quoteJSON "title" ++ ":\"").data ++ (escapeChars d.title.data ++ '"' :: (("," ++ quoteJSON "category" ++ ":\"").data ++ (escapeChars d.category.data ++ '"' :: (("," ++ quoteJSON "uploadDate" ++ ":\"").data ++ (escapeChars d.uploadDate.data ++ '"' :: ((jsonMemberOpt "expiryDate" d.expiryDate).data ++ ((jsonMemberOpt "fileContent" d.fileContent).data ++ ((jsonMemberOpt "fileName" d.fileName).data ++ ((jsonMemberOpt "fileType" d.fileType).data ++ ((jsonMemberOpt "notes" d.notes).data ++ ('\x7d' :: rest))))))))))))) := by
  simp [serializeDocument, jsonMember, quoteJSON, String.data_append, data_mk,
    data_lb, data_rb, List.append_assoc]

theorem parseDocument_roundTrip (d : Document) (rest : List Char) :
    parseDocument ((serializeDocument d).data ++ rest) = some (d, rest) := by
  rw [serializeDocument_decomp d rest, parseDocument]
  rw [parseMember_seg]
  simp only [Option.bind_eq_bind, Option.some_bind]
  rw [parseMember_seg]
  simp only [Option.some_bind]
  rw [parseMember_seg]
  simp only [Option.some_bind]
  rw [parseMember_seg]
  simp only [Option.some_bind]
  rw [parseTail_expiryDate]
  rw [parseTail_fileContent]
  rw [parseTail_fileName]
  rw [parseTail_fileType]
  rw [parseTail_notes]
  simp [matchLit]

theorem parseDocumentString_roundTrip (d : Document) :
    parseDocumentString (serializeDocument d) = some d := by
  have h := parseDocument_roundTrip d []
  rw [List.append_nil] at h
  rw [parseDocumentString, h]

theorem serializeDocument_ne_empty (d : Document) : serializeDocument d ≠ "" := by
  intro h
  have h2 : (serializeDocument d).data ++ [] = ("" : String).data ++ [] := by rw [h]
  rw [serializeDocument_decomp d []] at h2
  rw [show ("\x7b" ++ quoteJSON "id" ++ ":\"").data =
      ['\x7b', '"', 'i', 'd', '"', ':', '"'] from rfl] at h2
  simp at h2

/-! ### C7: capacity snapshot -/

/-- C7 counterexample: the usage loop guards with `if (key)`, so an entry
stored under the empty-string key (falsy in JavaScript) is skipped entirely —
its value's characters are not counted, contradicting the claim that `used`
sums 2 bytes per character over *every* key and value resident in the store. -/
theorem usage_skips_empty_key_cex :
    (getLocalStorageUsage { entries := [("", "aaaa")], liveQuota := 0 }).used = 0 ∧
    2 * entriesSize [("", "aaaa")] = 8 ∧
    ¬ ((getLocalStorageUsage { entries := [("", "aaaa")], liveQuota := 0 }).used =
        2 * entriesSize [("", "aaaa")]) := by
  refine ⟨rfl, rfl, ?_⟩
  decide

/-- C7 (amended): `usage()` returns `used` equal to 2 bytes per character
summed over every key and value resident in the store *whose key is
non-empty* (the loop's `if (key)` guard skips the falsy empty-string key),
`available = max(0, QUOTA - used)` with `QUOTA = 5 MiB = 5*1024*1024` bytes,
`percentUsed = used / QUOTA * 100`, and `has-space(n)` is true exactly when
`n ≤ available`. -/
theorem getLocalStorageUsage_spec (store : Store) (n : Nat) :
    (getLocalStorageUsage store).used =
      2 * ((store.entries.filter (fun kv => kv.1 ≠ "")).map
            (fun kv => kv.1.length + kv.2.length)).sum ∧
    ((getLocalStorageUsage store).available : ℤ) =
      max 0 ((LOCALSTORAGE_LIMIT : ℤ) - ((getLocalStorageUsage store).used : ℤ)) ∧
    (getLocalStorageUsage store).percentUsed =
      ((getLocalStorageUsage store).used : ℚ) / (LOCALSTORAGE_LIMIT : ℚ) * 100 ∧
    LOCALSTORAGE_LIMIT = 5 * 1024 * 1024 ∧
    (hasEnoughStorageSpace n store = true ↔
      n ≤ (getLocalStorageUsage store).available) := by
  have hloop : ∀ l : List Entry,
      usageLoop l = ((l.filter (fun kv => kv.1 ≠ "")).map
        (fun kv => kv.1.length + kv.2.length)).sum := by
    intro l
    induction l with
    | nil => rfl
    | cons kv rest ih =>
      obtain ⟨k, v⟩ := kv
      by_cases hk : k = "" <;> simp [usageLoop, hk, ih]
  refine ⟨?_, ?_, ?_, rfl, ?_⟩
  · simp [getLocalStorageUsage, hloop, Nat.mul_comm]
  · simp only [getLocalStorageUsage]
    rw [Int.toNat_of_nonneg (le_max_left 0 _)]
  · show Rat.divInt ((usageLoop store.entries * 2 : ℕ) * 100) LOCALSTORAGE_LIMIT =
      ((getLocalStorageUsage store).used : ℚ) / (LOCALSTORAGE_LIMIT : ℚ) * 100
    rw [Rat.divInt_eq_div]
    show _ = ((usageLoop store.entries * 2 : ℕ) : ℚ) / (LOCALSTORAGE_LIMIT : ℚ) * 100
    push_cast
    ring
  · simp [hasEnoughStorageSpace]

/-! ### C8: formatBytes -/

/-- C8 counterexample: `formatBytes` does not clamp the unit index.  For one
tebibyte the index `floor(log_1024 n) = 4` is out of range of the
`["Bytes","KB","MB","GB"]` table, `sizes[4]` is `undefined`, and the result is
`"1 undefined"` — not a GB rendering as the claim states. -/
theorem formatBytes_no_clamp_cex :
    formatBytes (1024 ^ 4) = "1 undefined" ∧
    formatBytes (1024 ^ 4) ≠ "1024 GB" := by
  have hlog : Nat.log 1024 (1024 ^ 4) = 4 := Nat.log_pow (by norm_num) 4
  have h1 : formatBytes (1024 ^ 4) = "1 undefined" := by
    simp only [formatBytes, if_neg (show ¬ ((1024 : ℕ) ^ 4 = 0) by norm_num), hlog]
    have hc : ((1024 ^ 4 : ℕ) : ℚ) / ((1024 : ℚ) ^ 4) * 100 = 100 := by norm_num
    rw [hc]
    norm_num [round_eq]
    rfl
  exact ⟨h1, by rw [h1]; decide⟩

/-- C8 (amended): `format-bytes(0) = "0 Bytes"`, `format-bytes(1536) =
"1.5 KB"`, `format-bytes(1024*1024) = "1 MB"`, and for `n > 0` the unit index
is `floor(log_1024 n)` *without* clamping: for every `n` of one tebibyte or
more the index falls outside the unit table and the unit renders as the
JavaScript string `"undefined"` instead of GB. -/
theorem formatBytes_spec :
    formatBytes 0 = "0 Bytes" ∧
    formatBytes 1536 = "1.5 KB" ∧
    formatBytes (1024 * 1024) = "1 MB" ∧
    ∀ n : Nat, 1024 ^ 4 ≤ n → ∃ s, formatBytes n = s ++ " undefined" := by
  refine ⟨rfl, ?_, ?_, ?_⟩
  · have hlog : Nat.log 1024 1536 = 1 :=
      Nat.log_eq_of_pow_le_of_lt_pow (by norm_num) (by norm_num)
    simp only [formatBytes, if_neg (show ¬ ((1536 : ℕ) = 0) by norm_num), hlog]
    have hc : ((1536 : ℕ) : ℚ) / ((1024 : ℚ) ^ 1) * 100 = 150 := by norm_num
    rw [hc]
    norm_num [round_eq]
    rfl
  · have hlog : Nat.log 1024 (1024 * 1024) = 2 :=
      Nat.log_eq_of_pow_le_of_lt_pow (by norm_num) (by norm_num)
    simp only [formatBytes, if_neg (show ¬ ((1024 * 1024 : ℕ) = 0) by norm_num), hlog]
    have hc : ((1024 * 1024 : ℕ) : ℚ) / ((1024 : ℚ) ^ 2) * 100 = 100 := by norm_num
    rw [hc]
    norm_num [round_eq]
    rfl
  · intro n hn
    have hpow : (1024 : ℕ) ^ 4 = 1099511627776 := by norm_num
    have hn0 : n ≠ 0 := by omega
    have hlog : 4 ≤ Nat.log 1024 n := (Nat.pow_le_iff_le_log (by norm_num) hn0).1 hn
    obtain ⟨j, hj⟩ : ∃ j, Nat.log 1024 n = j + 4 := ⟨Nat.log 1024 n - 4, by omega⟩
    refine ⟨renderHundredths
      ((round ((n : ℚ) / ((1024 : ℚ) ^ Nat.log 1024 n) * 100) : ℤ).toNat), ?_⟩
    simp only [formatBytes, if_neg hn0]
    have hd : sizeUnits.getD (Nat.log 1024 n) "undefined" = "undefined" := by
      rw [hj]
      show sizeUnits.getD (j + 4) "undefined" = "undefined"
      simp only [sizeUnits, List.getD_cons_succ, List.getD_nil]
    rw [hd]
    refine String.ext ?_
    simp [String.data_append, List.append_assoc]

/-- Witness for the hypothesis-bearing part of `formatBytes_spec`,
instantiated at one tebibyte. -/
theorem formatBytes_spec_witness :
    1024 ^ 4 ≤ 1024 ^ 4 ∧ ∃ s, formatBytes (1024 ^ 4) = s ++ " undefined" :=
  ⟨le_refl _, formatBytes_spec.2.2.2 (1024 ^ 4) (le_refl _)⟩

/-! ### C9: getFileType -/

/-- C9 counterexample: for a `data:` payload whose type descriptor does not
parse, `getFileType` returns `"unknown/unknown"`, not
`"application/octet-stream"` as the claim states. -/
theorem getFileType_data_unknown_cex :
    getFileType "data:;base64" = "unknown/unknown" ∧
    getFileType "data:;base64" ≠ "application/octet-stream" := by
  refine ⟨rfl, ?_⟩
  decide

/-- C9 (amended): for every input string, `getFileType` returns the MIME
type embedded in a well-formed self-describing `data:` payload; for every
plain reference string it returns the type mapped from the lower-cased last
`.`-component when that extension is in the known table, and
`"application/octet-stream"` whenever it maps to no table entry — but every
`data:` payload whose type descriptor does not parse yields
`"unknown/unknown"`, not `"application/octet-stream"`. -/
theorem getFileType_spec (file t u r : String)
    (ht : t ≠ "") (hu : u ≠ "")
    (htc : ∀ c ∈ t.data, isAlnumJS c = true)
    (huc : ∀ c ∈ u.data, isMimeSubChar c = true) :
    getFileType ("data:" ++ t ++ "/" ++ u ++ ";base64" ++ r) = t ++ "/" ++ u ∧
    (startsWithJS file "data:" = false →
      (∀ m, (extOf file, m) ∈ extTable → getFileType file = m) ∧
      ((∀ m, (extOf file, m) ∉ extTable) →
        getFileType file = "application/octet-stream")) ∧
    (startsWithJS file "data:" = true → mimeSearch file.data = none →
      getFileType file = "unknown/unknown") := by
  have hns' : startsWithJS file "data:" = false →
      ¬ startsWithJS file "data:" = true := by
    intro hns h
    rw [hns] at h
    exact Bool.false_ne_true h
  refine ⟨?main, fun hns => ⟨fun m hm => ?map, fun hnm => ?dflt⟩, fun hds hn => ?unk⟩
  case map =>
    simp only [extTable, List.mem_cons, List.not_mem_nil, or_false,
      Prod.mk.injEq] at hm
    simp only [getFileType]
    rw [if_neg (hns' hns)]
    rcases hm with ⟨he, hm⟩ | ⟨he, hm⟩ | ⟨he, hm⟩ | ⟨he, hm⟩ | ⟨he, hm⟩ |
      ⟨he, hm⟩ | ⟨he, hm⟩ | ⟨he, hm⟩ <;> subst hm <;> rw [he] <;> rfl
  case dflt =>
    have h1 : extOf file ≠ "pdf" := fun h => hnm "application/pdf" (by rw [h]; decide)
    have h2 : extOf file ≠ "jpg" := fun h => hnm "image/jpeg" (by rw [h]; decide)
    have h3 : extOf file ≠ "jpeg" := fun h => hnm "image/jpeg" (by rw [h]; decide)
    have h4 : extOf file ≠ "png" := fun h => hnm "image/png" (by rw [h]; decide)
    have h5 : extOf file ≠ "doc" := fun h => hnm "application/msword" (by rw [h]; decide)
    have h6 : extOf file ≠ "docx" := fun h =>
      hnm "application/vnd.openxmlformats-officedocument.wordprocessingml.document"
        (by rw [h]; decide)
    have h7 : extOf file ≠ "xls" := fun h => hnm "application/vnd.ms-excel" (by rw [h]; decide)
    have h8 : extOf file ≠ "xlsx" := fun h =>
      hnm "application/vnd.openxmlformats-officedocument.spreadsheetml.sheet"
        (by rw [h]; decide)
    simp only [getFileType]
    rw [if_neg (hns' hns), if_neg h1,
      if_neg (by simp [h2, h3] : ¬ (extOf file = "jpg" ∨ extOf file = "jpeg")),
      if_neg h4, if_neg h5, if_neg h6, if_neg h7, if_neg h8]
  case unk =>
    simp only [getFileType]
    rw [if_pos hds, hn]
  have hdata : ("data:" ++ t ++ "/" ++ u ++ ";base64" ++ r).data =
      'd' :: 'a' :: 't' :: 'a' :: ':' ::
        (t.data ++ '/' :: (u.data ++ ';' :: 'b' :: 'a' :: 's' :: 'e' :: '6' :: '4' :: r.data)) := by
    simp only [String.data_append]
    show ['d', 'a', 't', 'a', ':'] ++ t.data ++ ['/'] ++ u.data ++
        [';', 'b', 'a', 's', 'e', '6', '4'] ++ r.data = _
    simp [List.append_assoc]
  have hmatch : mimeMatchAt (('d' : Char) :: 'a' :: 't' :: 'a' :: ':' ::
      (t.data ++ '/' :: (u.data ++ ';' :: 'b' :: 'a' :: 's' :: 'e' :: '6' :: '4' :: r.data))) =
      some (t.data ++ '/' :: u.data) := by
    have h1 : matchLit ['d', 'a', 't', 'a', ':']
        (('d' : Char) :: 'a' :: 't' :: 'a' :: ':' ::
          (t.data ++ '/' :: (u.data ++ ';' :: 'b' :: 'a' :: 's' :: 'e' :: '6' :: '4' :: r.data))) =
        some (t.data ++ '/' :: (u.data ++ ';' :: 'b' :: 'a' :: 's' :: 'e' :: '6' :: '4' :: r.data)) :=
      matchLit_append ['d', 'a', 't', 'a', ':'] _
    have h2 : (t.data ++ '/' ::
        (u.data ++ ';' :: 'b' :: 'a' :: 's' :: 'e' :: '6' :: '4' :: r.data)).takeWhile isAlnumJS =
        t.data :=
      takeWhile_append_stop _ _ _ _ htc (by decide)
    have h3 : (u.data ++ ';' :: 'b' :: 'a' :: 's' :: 'e' :: '6' :: '4' :: r.data).takeWhile
        isMimeSubChar = u.data :=
      takeWhile_append_stop _ _ _ _ huc (by decide)
    rw [mimeMatchAt, h1]
    simp only [Option.bind_eq_bind, Option.some_bind, h2,
      data_ne_nil_of_ne_empty t ht, if_false, List.drop_left]
    rw [show matchLit ['/'] ('/' ::
        (u.data ++ ';' :: 'b' :: 'a' :: 's' :: 'e' :: '6' :: '4' :: r.data)) =
        some (u.data ++ ';' :: 'b' :: 'a' :: 's' :: 'e' :: '6' :: '4' :: r.data) from by
      simp [matchLit]]
    simp only [Option.some_bind, h3, data_ne_nil_of_ne_empty u hu, if_false, List.drop_left]
    rw [show matchLit [';', 'b', 'a', 's', 'e', '6', '4']
        ((';' : Char) :: 'b' :: 'a' :: 's' :: 'e' :: '6' :: '4' :: r.data) = some r.data from
      matchLit_append [';', 'b', 'a', 's', 'e', '6', '4'] r.data]
    simp
  have hstarts : startsWithJS ("data:" ++ t ++ "/" ++ u ++ ";base64" ++ r) "data:" = true := by
    rw [startsWithJS, hdata]
    show (matchLit ['d', 'a', 't', 'a', ':'] _).isSome = true
    rw [show ('d' : Char) :: 'a' :: 't' :: 'a' :: ':' ::
        (t.data ++ '/' :: (u.data ++ ';' :: 'b' :: 'a' :: 's' :: 'e' :: '6' :: '4' :: r.data)) =
        ['d', 'a', 't', 'a', ':'] ++
        (t.data ++ '/' :: (u.data ++ ';' :: 'b' :: 'a' :: 's' :: 'e' :: '6' :: '4' :: r.data)) from
      rfl]
    rw [matchLit_append]
    rfl
  rw [getFileType, if_pos hstarts, hdata, mimeSearch, hmatch]
  refine String.ext ?_
  simp [String.data_append]

/-- Witness for `getFileType_spec`, instantiated at a PNG data URL and at
the reference string `"report.pdf"`, whose extension lies in the table. -/
theorem getFileType_spec_witness :
    getFileType ("data:" ++ "image" ++ "/" ++ "png" ++ ";base64" ++ ",AAA") =
      "image" ++ "/" ++ "png" ∧
    getFileType "report.pdf" = "application/pdf" :=
  ⟨(getFileType_spec "report.pdf" "image" "png" ",AAA" (by decide) (by decide)
      (by decide) (by decide)).1,
   ((getFileType_spec "report.pdf" "image" "png" ",AAA" (by decide) (by decide)
      (by decide) (by decide)).2.1 (by decide)).1 "application/pdf" (by decide)⟩

/-! ### Helper lemmas about saveDocuments / saveCategories -/

/-- When the capacity pre-check fails, `saveDocuments` returns the
capacity-exceeded failure and the store is untouched. -/
theorem saveDocuments_reject_of_no_space (documents : List Document) (store : Store)
    (h : hasEnoughStorageSpace ((serializeDocuments documents).length * 2) store = false) :
    saveDocuments documents store =
      ({ success := false
         error := some ("Not enough storage space. Need " ++
           formatBytes ((serializeDocuments documents).length * 2) ++ ", but only " ++
           formatBytes (getLocalStorageUsage store).available ++ " available.") },
       store) := by
  simp only [saveDocuments, h, if_pos]

/-- A failed `saveDocuments` never mutates the store. -/
theorem saveDocuments_store_of_fail (documents : List Document) (store : Store)
    (h : (saveDocuments documents store).1.success = false) :
    (saveDocuments documents store).2 = store := by
  by_cases hsp : hasEnoughStorageSpace ((serializeDocuments documents).length * 2)
      store = false
  · simp [saveDocuments, hsp]
  · cases hset : store.setItem DOCUMENTS_KEY (serializeDocuments documents) with
    | none => simp [saveDocuments, hsp, hset]
    | some s =>
      exfalso
      simp [saveDocuments, hsp, hset] at h

/-- A failed `saveCategories` never mutates the store. -/
theorem saveCategories_store_of_fail (categories : List Category) (store : Store)
    (h : (saveCategories categories store).1.success = false) :
    (saveCategories categories store).2 = store := by
  cases hset : store.setItem CATEGORIES_KEY (serializeCategories categories) with
  | none => simp [saveCategories, hset]
  | some s =>
    exfalso
    simp [saveCategories, hset] at h

/-- One step of the usage loop, stated for rewriting. -/
theorem usageLoop_cons (k v : String) (rest : List Entry) :
    usageLoop ((k, v) :: rest) =
      (if k = "" then 0 else k.length + v.length) + usageLoop rest := rfl

/-- The `available` projection of the usage snapshot, stated for rewriting. -/
theorem getUsage_available_eq (store : Store) :
    (getLocalStorageUsage store).available =
      (max 0 ((LOCALSTORAGE_LIMIT : ℤ) - ((usageLoop store.entries * 2 : ℕ) : ℤ))).toNat :=
  rfl

/-- A filler value of `n` characters. -/
def filler (n : Nat) : String := String.mk (List.replicate n 'a')

theorem filler_length (n : Nat) : (filler n).length = n := by
  rw [filler, String.length_mk, List.length_replicate]

/-- A store whose occupancy alone exceeds the 5 MiB estimate, so
`available = 0`. -/
def fullStore : Store := { entries := [("filler", filler 2621440)], liveQuota := 0 }

theorem fullStore_available : (getLocalStorageUsage fullStore).available = 0 := by
  have h1 : usageLoop fullStore.entries = 6 + 2621440 := by
    rw [show fullStore.entries = [("filler", filler 2621440)] from rfl, usageLoop_cons,
      if_neg (by decide : ¬ (("filler" : String) = "")), filler_length]
    rfl
  rw [getUsage_available_eq, h1]
  decide

theorem hasSpace_fullStore_false (m : Nat) (hm : 0 < m) :
    hasEnoughStorageSpace m fullStore = false := by
  simp [hasEnoughStorageSpace, fullStore_available]
  omega

/-! ### C1: capacity admission of saveDocuments -/

/-- C1: for every document collection and store, if `has-space` of the
collection's serialized size (2 bytes per character of the JSON string) is
false, then `saveDocuments` returns a failure result whose error reports the
required and available sizes human-formatted (via `formatBytes`), and the
store is left unchanged — no write is attempted. -/
theorem saveDocuments_capacity_reject (documents : List Document) (store : Store)
    (h : hasEnoughStorageSpace ((serializeDocuments documents).length * 2) store = false) :
    (saveDocuments documents store).1.success = false ∧
    (saveDocuments documents store).1.error =
      some ("Not enough storage space. Need " ++
        formatBytes ((serializeDocuments documents).length * 2) ++ ", but only " ++
        formatBytes (getLocalStorageUsage store).available ++ " available.") ∧
    (saveDocuments documents store).2 = store := by
  rw [saveDocuments_reject_of_no_space documents store h]
  exact ⟨rfl, rfl, rfl⟩

/-- Witness for `saveDocuments_capacity_reject` at the empty collection and a
store whose occupancy already exceeds the quota. -/
theorem saveDocuments_capacity_reject_witness :
    hasEnoughStorageSpace ((serializeDocuments []).length * 2) fullStore = false ∧
    ((saveDocuments [] fullStore).1.success = false ∧
     (saveDocuments [] fullStore).1.error =
       some ("Not enough storage space. Need " ++
         formatBytes ((serializeDocuments []).length * 2) ++ ", but only " ++
         formatBytes (getLocalStorageUsage fullStore).available ++ " available.") ∧
     (saveDocuments [] fullStore).2 = fullStore) :=
  have h : hasEnoughStorageSpace ((serializeDocuments []).length * 2) fullStore = false :=
    hasSpace_fullStore_false _ (by decide)
  ⟨h, saveDocuments_capacity_reject [] fullStore h⟩

/-! ### C10: the pre-check does not credit the existing documents key -/

/-- Two small concrete documents for the near-quota deletion scenario. -/
def docA : Document :=
  { id := "a", title := "A", category := "personal", uploadDate := "2024-01-01" }

/-- Second concrete document. -/
def docB : Document :=
  { id := "b", title := "B", category := "personal", uploadDate := "2024-01-02" }

/-- A store that persists `[docA, docB]` under the documents key while filler
data pushes the total occupancy past the 5 MiB estimate. -/
def nearFullStore : Store :=
  { entries := [(DOCUMENTS_KEY, serializeDocuments [docA, docB]),
                ("filler", filler 2621440)]
    liveQuota := 0 }

theorem nearFullStore_available :
    (getLocalStorageUsage nearFullStore).available = 0 := by
  have h1 : usageLoop nearFullStore.entries =
      ("documents".length + (serializeDocuments [docA, docB]).length) + (6 + 2621440) := by
    rw [show nearFullStore.entries =
        [(DOCUMENTS_KEY, serializeDocuments [docA, docB]), ("filler", filler 2621440)]
      from rfl, usageLoop_cons, usageLoop_cons,
      if_neg (by decide : ¬ (DOCUMENTS_KEY = "")),
      if_neg (by decide : ¬ (("filler" : String) = "")), filler_length,
      show ("filler" : String).length = 6 from rfl,
      show usageLoop [] = 0 from rfl,
      show DOCUMENTS_KEY = "documents" from rfl]
  rw [getUsage_available_eq, h1, show LOCALSTORAGE_LIMIT = 5242880 from rfl]
  omega

set_option maxRecDepth 8192 in
/-- C10: `saveDocuments` compares the full serialized size of the new
collection against the currently free space without crediting the space held
by the existing documents key: whenever free space is smaller than the new
collection's serialized size the save is rejected with the capacity error and
the store untouched — and concretely, on a near-quota store persisting
`[docA, docB]`, saving the strictly smaller collection `[docA]` (a deletion)
still fails the capacity pre-check. -/
theorem saveDocuments_ignores_existing_key_credit :
    (∀ (documents : List Document) (store : Store),
      hasEnoughStorageSpace ((serializeDocuments documents).length * 2) store = false →
      (saveDocuments documents store).1.success = false ∧
      (saveDocuments documents store).2 = store) ∧
    nearFullStore.getItem DOCUMENTS_KEY = some (serializeDocuments [docA, docB]) ∧
    (serializeDocuments [docA]).length < (serializeDocuments [docA, docB]).length ∧
    (saveDocuments [docA] nearFullStore).1.success = false ∧
    (saveDocuments [docA] nearFullStore).2 = nearFullStore := by
  have hgen : ∀ (documents : List Document) (store : Store),
      hasEnoughStorageSpace ((serializeDocuments documents).length * 2) store = false →
      (saveDocuments documents store).1.success = false ∧
      (saveDocuments documents store).2 = store := by
    intro documents store h
    rw [saveDocuments_reject_of_no_space documents store h]
    exact ⟨rfl, rfl⟩
  have hfail : hasEnoughStorageSpace ((serializeDocuments [docA]).length * 2)
      nearFullStore = false := by
    simp [hasEnoughStorageSpace, nearFullStore_available]
    decide
  exact ⟨hgen, rfl, by decide, (hgen [docA] nearFullStore hfail).1,
    (hgen [docA] nearFullStore hfail).2⟩

set_option maxRecDepth 8192 in
/-- Witness for the hypothesis-bearing part of
`saveDocuments_ignores_existing_key_credit`. -/
theorem saveDocuments_ignores_existing_key_credit_witness :
    hasEnoughStorageSpace ((serializeDocuments [docA]).length * 2) nearFullStore = false ∧
    (saveDocuments [docA] nearFullStore).1.success = false ∧
    (saveDocuments [docA] nearFullStore).2 = nearFullStore :=
  have hfail : hasEnoughStorageSpace ((serializeDocuments [docA]).length * 2)
      nearFullStore = false := by
    simp [hasEnoughStorageSpace, nearFullStore_available]
    decide
  ⟨hfail, (saveDocuments_ignores_existing_key_credit.1 [docA] nearFullStore hfail).1,
    (saveDocuments_ignores_existing_key_credit.1 [docA] nearFullStore hfail).2⟩

/-! ### C6: loadDocuments on missing or corrupt data -/

/-- C6 counterexample: the `loadDocuments` of the unnamed storage module (the
variant the dashboard uses) has no `try`/`catch`; on a corrupt persisted
value `JSON.parse` throws and the exception crosses the boundary instead of
an empty collection being returned. -/
theorem loadDocuments_corrupt_throws_cex :
    loadDocumentsUnnamed { entries := [(DOCUMENTS_KEY, "\x7b")], liveQuota := 0 } =
      .error "SyntaxError: Unexpected token in JSON" ∧
    loadDocumentsUnnamed { entries := [(DOCUMENTS_KEY, "\x7b")], liveQuota := 0 } ≠
      .ok [] := by
  refine ⟨rfl, ?_⟩
  intro h
  rw [show loadDocumentsUnnamed { entries := [(DOCUMENTS_KEY, "\x7b")], liveQuota := 0 } =
      .error "SyntaxError: Unexpected token in JSON" from rfl] at h
  exact Except.noConfusion h

/-- C6 (amended): both variants of `loadDocuments` return the empty
collection when no documents key is persisted, and the per-user-namespaced
variant in `src/lib/storage-utils.ts` also returns the empty collection when
the persisted value is corrupt; the unnamed-module variant used by the
dashboard instead propagates the `JSON.parse` exception on corrupt data. -/
theorem loadDocuments_spec :
    (∀ store : Store, store.getItem DOCUMENTS_KEY = none →
      loadDocumentsUnnamed store = .ok []) ∧
    (∀ (store : Store) (s : String), store.getItem DOCUMENTS_KEY = some s → s ≠ "" →
      parseDocumentsString s = none →
      loadDocumentsUnnamed store = .error "SyntaxError: Unexpected token in JSON") ∧
    (∀ (store : Store) (userId : String),
      store.getItem ("documents_" ++ userId) = none →
      loadDocumentsNamespaced store userId = []) ∧
    (∀ (store : Store) (userId : String) (s : String),
      store.getItem ("documents_" ++ userId) = some s →
      parseDocumentsString s = none →
      loadDocumentsNamespaced store userId = []) := by
  refine ⟨?_, ?_, ?_, ?_⟩
  · intro store h
    simp [loadDocumentsUnnamed, h]
  · intro store s hs hne hparse
    simp [loadDocumentsUnnamed, hs, hne, hparse]
  · intro store userId h
    simp [loadDocumentsNamespaced, h]
  · intro store userId s hs hparse
    by_cases hne : s = ""
    · simp [loadDocumentsNamespaced, hs, hne]
    · simp [loadDocumentsNamespaced, hs, hne, hparse]

/-- Witness for `loadDocuments_spec` at concrete stores: an empty store, a
store with a corrupt documents value, and their namespaced counterparts. -/
theorem loadDocuments_spec_witness :
    loadDocumentsUnnamed { entries := [], liveQuota := 0 } = .ok [] ∧
    loadDocumentsUnnamed { entries := [(DOCUMENTS_KEY, "not json")], liveQuota := 0 } =
      .error "SyntaxError: Unexpected token in JSON" ∧
    loadDocumentsNamespaced { entries := [], liveQuota := 0 } "u1" = [] ∧
    loadDocumentsNamespaced { entries := [("documents_u1", "not json")], liveQuota := 0 }
      "u1" = [] :=
  ⟨loadDocuments_spec.1 _ rfl,
   loadDocuments_spec.2.1 _ "not json" rfl (by decide) (by decide),
   loadDocuments_spec.2.2.1 _ "u1" rfl,
   loadDocuments_spec.2.2.2 _ "u1" "not json" rfl (by decide)⟩

/-! ### C2: rollback of the in-memory mirror on persist failure -/

/-- C2: for every mutating operation of the catalog service (add, update,
add-category), if the durable save returns a failure result then the
in-memory collection is left at (reverted to) its exact pre-mutation value,
and the store is unchanged, so the in-memory mirror and the durable store do
not diverge. -/
theorem rollback_on_save_failure :
    (∀ (st : DashState) (d : Document), st.storageAvailable = true →
      (saveDocuments (st.documents ++ [d]) st.store).1.success = false →
      (handleAddDocument d st).documents = st.documents ∧
      (handleAddDocument d st).store = st.store) ∧
    (∀ (st : DashState) (u : Document), st.storageAvailable = true →
      (saveDocuments (st.documents.map (fun doc => if doc.id = u.id then u else doc))
        st.store).1.success = false →
      (handleUpdateDocument u st).documents = st.documents ∧
      (handleUpdateDocument u st).store = st.store) ∧
    (∀ (st : DashState) (c : Category), st.storageAvailable = true →
      (saveCategories (st.categories ++ [c]) st.store).1.success = false →
      (handleAddCategory c st).categories = st.categories ∧
      (handleAddCategory c st).store = st.store) := by
  refine ⟨?_, ?_, ?_⟩
  · intro st d hav hfail
    have hs := saveDocuments_store_of_fail _ _ hfail
    by_cases hpre : hasEnoughStorageSpace (estimateDocumentSize d) st.store = false
    · constructor <;> simp [handleAddDocument, if_pos hpre]
    · constructor <;> simp [handleAddDocument, if_neg hpre, hav, hfail, hs]
  · intro st u hav hfail
    have hs := saveDocuments_store_of_fail _ _ hfail
    by_cases hrej : (match st.documents.find? (fun doc => doc.id = u.id) with
        | some od =>
          decide (estimateDocumentSize u > estimateDocumentSize od) &&
            !hasEnoughStorageSpace
              (estimateDocumentSize u - estimateDocumentSize od) st.store
        | none => false) = true
    · constructor <;> simp [handleUpdateDocument, if_pos hrej]
    · constructor <;> simp [handleUpdateDocument, if_neg hrej, hav, hfail, hs]
  · intro st c hav hfail
    have hs := saveCategories_store_of_fail _ _ hfail
    constructor <;> simp [handleAddCategory, hav, hfail, hs]

/-- A live-quota-zero store: every raw write throws `QuotaExceededError`. -/
def zeroQuotaStore : Store := { entries := [], liveQuota := 0 }

/-- A dashboard state over `zeroQuotaStore` with storage available. -/
def wState : DashState :=
  { documents := [], categories := [], store := zeroQuotaStore,
    storageAvailable := true, hasDeletedDoc := false, documentToDelete := none,
    deleteDialogOpen := false, storageWarning := none }

/-- Concrete document for the rollback witness. -/
def docW : Document :=
  { id := "w", title := "W", category := "personal", uploadDate := "2024-01-01" }

/-- Concrete category for the rollback witness. -/
def catW : Category := { category := "work", name := "Work", color := "gray" }

/-- Witness for `rollback_on_save_failure`: on a store whose live quota is
zero the pre-checks pass but every raw write throws, so all three saves fail
and all three handlers leave their collections and the store unchanged. -/
theorem rollback_on_save_failure_witness :
    ((saveDocuments (wState.documents ++ [docW]) wState.store).1.success = false ∧
     (handleAddDocument docW wState).documents = wState.documents ∧
     (handleAddDocument docW wState).store = wState.store) ∧
    ((saveDocuments (wState.documents.map
        (fun doc => if doc.id = docW.id then docW else doc)) wState.store).1.success = false ∧
     (handleUpdateDocument docW wState).documents = wState.documents ∧
     (handleUpdateDocument docW wState).store = wState.store) ∧
    ((saveCategories (wState.categories ++ [catW]) wState.store).1.success = false ∧
     (handleAddCategory catW wState).categories = wState.categories ∧
     (handleAddCategory catW wState).store = wState.store) :=
  have h1 : (saveDocuments (wState.documents ++ [docW]) wState.store).1.success = false := by
    decide
  have h2 : (saveDocuments (wState.documents.map
      (fun doc => if doc.id = docW.id then docW else doc)) wState.store).1.success = false := by
    decide
  have h3 : (saveCategories (wState.categories ++ [catW]) wState.store).1.success = false := by
    decide
  ⟨⟨h1, (rollback_on_save_failure.1 wState docW rfl h1).1,
       (rollback_on_save_failure.1 wState docW rfl h1).2⟩,
   ⟨h2, (rollback_on_save_failure.2.1 wState docW rfl h2).1,
       (rollback_on_save_failure.2.1 wState docW rfl h2).2⟩,
   ⟨h3, (rollback_on_save_failure.2.2 wState catW rfl h3).1,
       (rollback_on_save_failure.2.2 wState catW rfl h3).2⟩⟩


theorem find?_upsert_self (l : List Entry) (k v : String) :
    (upsert l k v).find? (fun kv => kv.1 = k) = some (k, v) := by
  induction l with
  | nil => simp [upsert]
  | cons kv rest ih =>
    obtain ⟨k', v'⟩ := kv
    by_cases h : k' = k
    · simp [upsert, h]
    · simp [upsert, h, ih]

theorem find?_upsert_other (l : List Entry) (k v k' : String) (hne : k' ≠ k) :
    (upsert l k v).find? (fun kv => kv.1 = k') = l.find? (fun kv => kv.1 = k') := by
  have hne' : ¬ (k = k') := fun hh => hne hh.symm
  induction l with
  | nil => simp [upsert, hne']
  | cons kv rest ih =>
    obtain ⟨k'', v''⟩ := kv
    by_cases h : k'' = k
    · subst h
      simp [upsert, hne']
    · by_cases h2 : k'' = k' <;> simp [upsert, h, h2, ih, hne]

theorem setItem_entries (s s' : Store) (k v : String) (h : s.setItem k v = some s') :
    s'.entries = upsert s.entries k v := by
  simp only [Store.setItem] at h
  split at h
  · cases h
    rfl
  · cases h

theorem getItem_setItem_self (s s' : Store) (k v : String) (h : s.setItem k v = some s') :
    s'.getItem k = some v := by
  simp [Store.getItem, setItem_entries s s' k v h, find?_upsert_self]

theorem getItem_setItem_other (s s' : Store) (k v k' : String)
    (h : s.setItem k v = some s') (hne : k' ≠ k) :
    s'.getItem k' = s.getItem k' := by
  simp [Store.getItem, setItem_entries s s' k v h, find?_upsert_other _ _ _ _ hne]

theorem find?_filter_self (l : List Entry) (k : String) :
    (l.filter (fun kv => ¬ (kv.1 = k))).find? (fun kv => kv.1 = k) = none := by
  induction l with
  | nil => rfl
  | cons kv rest ih =>
    obtain ⟨k', v'⟩ := kv
    by_cases h : k' = k
    · rw [List.filter_cons, if_neg (by simp [h])]
      exact ih
    · rw [List.filter_cons, if_pos (by simp [h]),
        List.find?_cons_of_neg _ (by simp [h])]
      exact ih

theorem find?_filter_other (l : List Entry) (k k' : String) (hne : k' ≠ k) :
    (l.filter (fun kv => ¬ (kv.1 = k))).find? (fun kv => kv.1 = k') =
      l.find? (fun kv => kv.1 = k') := by
  have hne' : ¬ (k = k') := fun hh => hne hh.symm
  induction l with
  | nil => simp
  | cons kv rest ih =>
    obtain ⟨k'', v''⟩ := kv
    by_cases h : k'' = k
    · subst h
      rw [List.filter_cons, if_neg (by simp), ih,
        List.find?_cons_of_neg _ (by simp [hne'])]
    · by_cases h2 : k'' = k'
      · rw [List.filter_cons, if_pos (by simp [h]),
          List.find?_cons_of_pos _ (by simp [h2]),
          List.find?_cons_of_pos _ (by simp [h2])]
      · rw [List.filter_cons, if_pos (by simp [h]),
          List.find?_cons_of_neg _ (by simp [h2]),
          List.find?_cons_of_neg _ (by simp [h2])]
        exact ih

theorem getItem_removeItem_self (s : Store) (k : String) :
    (s.removeItem k).getItem k = none := by
  simp [Store.getItem, Store.removeItem, find?_filter_self]

theorem getItem_removeItem_other (s : Store) (k k' : String) (hne : k' ≠ k) :
    (s.removeItem k).getItem k' = s.getItem k' := by
  show ((s.entries.filter (fun kv => ¬ (kv.1 = k))).find?
      (fun kv => kv.1 = k')).map (fun kv => kv.2) = _
  rw [find?_filter_other _ _ _ hne]
  rfl

theorem saveDocuments_getItem_other (documents : List Document) (store : Store)
    (k : String) (hk : k ≠ DOCUMENTS_KEY) :
    ((saveDocuments documents store).2).getItem k = store.getItem k := by
  by_cases hsp : hasEnoughStorageSpace ((serializeDocuments documents).length * 2)
      store = false
  · simp [saveDocuments, hsp]
  · cases hset : store.setItem DOCUMENTS_KEY (serializeDocuments documents) with
    | none => simp [saveDocuments, hsp, hset]
    | some s =>
      simp only [saveDocuments, hsp, if_false, hset]
      exact getItem_setItem_other _ _ _ _ _ hset hk

theorem clear_getItem_last (store : Store) :
    (clearLastDeletedDocument store).getItem LAST_DELETED_DOCUMENT_KEY = none := by
  rw [clearLastDeletedDocument,
    getItem_removeItem_other _ _ _ (by decide),
    getItem_removeItem_self]

theorem loadLastDeletedDocument_clear (store : Store) :
    loadLastDeletedDocument (clearLastDeletedDocument store) = none := by
  simp [loadLastDeletedDocument, clear_getItem_last]


theorem handleUndoDelete_of_empty (st : DashState) (hav : st.storageAvailable = true)
    (hload : loadLastDeletedDocument st.store = none) :
    handleUndoDelete st = (st, UndoOutcome.undoFailed) := by
  simp [handleUndoDelete, hav, hload]

theorem handleUndoDelete_storageAvailable (st : DashState) :
    (handleUndoDelete st).1.storageAvailable = st.storageAvailable := by
  simp only [handleUndoDelete]
  split
  · rfl
  · split
    · rfl
    · split
      · rfl
      · split
        · split <;> rfl
        · rfl

theorem handleUndoDelete_restored_available (st : DashState)
    (hres : (handleUndoDelete st).2 = UndoOutcome.restored) :
    st.storageAvailable = true := by
  by_cases hav : st.storageAvailable = false
  · simp [handleUndoDelete, hav] at hres
  · revert hav
    cases st.storageAvailable <;> simp

theorem handleUndoDelete_restored_documents (st : DashState) (d : Document)
    (hav : st.storageAvailable = true)
    (hload : loadLastDeletedDocument st.store = some d)
    (hres : (handleUndoDelete st).2 = UndoOutcome.restored) :
    (handleUndoDelete st).1.documents =
      (match loadLastDeletedDocumentIndex st.store with
       | some i =>
         if 0 ≤ i ∧ i ≤ (st.documents.length : Int) then st.documents.insertIdx i.toNat d
         else st.documents ++ [d]
       | none => st.documents ++ [d]) := by
  by_cases hsp : hasEnoughStorageSpace (estimateDocumentSize d) st.store = false
  · simp [handleUndoDelete, hav, hload, hsp] at hres
  · simp only [handleUndoDelete, hav, hload, hsp] at hres ⊢
    simp only [Bool.true_eq_false, if_false, ite_false] at hres ⊢
    split at hres <;> split at hres <;> simp_all


theorem handleUndoDelete_ledger_cleared (st : DashState) (d : Document)
    (hav : st.storageAvailable = true)
    (hload : loadLastDeletedDocument st.store = some d)
    (h : (handleUndoDelete st).2 = UndoOutcome.restored ∨
      (handleUndoDelete st).2 = UndoOutcome.storageError) :
    loadLastDeletedDocument (handleUndoDelete st).1.store = none := by
  by_cases hsp : hasEnoughStorageSpace (estimateDocumentSize d) st.store = false
  · rcases h with h | h <;> simp [handleUndoDelete, hav, hload, hsp] at h
  · simp only [handleUndoDelete, hav, hload, hsp]
    simp only [Bool.true_eq_false, if_false, ite_false]
    have key : ∀ (docs : List Document) (s : Store),
        loadLastDeletedDocument ((saveDocuments docs (clearLastDeletedDocument s)).2) =
          none := by
      intro docs s
      have hpre := saveDocuments_getItem_other docs (clearLastDeletedDocument s)
        LAST_DELETED_DOCUMENT_KEY (by decide)
      simp [loadLastDeletedDocument, hpre, clear_getItem_last]
    generalize (match loadLastDeletedDocumentIndex st.store with
      | some i =>
        if 0 ≤ i ∧ i ≤ (st.documents.length : Int) then st.documents.insertIdx i.toNat d
        else st.documents ++ [d]
      | none => st.documents ++ [d]) = newDocs
    by_cases hsucc :
      (saveDocuments newDocs (clearLastDeletedDocument st.store)).1.success = true
    · rw [if_pos hsucc]
      exact key _ _
    · rw [if_neg hsucc]
      exact key _ _

theorem handleUndoDelete_restored_documents_idx (st : DashState) (d : Document)
    (i : Int) (hav : st.storageAvailable = true)
    (hload : loadLastDeletedDocument st.store = some d)
    (hres : (handleUndoDelete st).2 = UndoOutcome.restored)
    (hidx : loadLastDeletedDocumentIndex st.store = some i) :
    (handleUndoDelete st).1.documents =
      (if 0 ≤ i ∧ i ≤ (st.documents.length : Int) then st.documents.insertIdx i.toNat d
       else st.documents ++ [d]) := by
  rw [handleUndoDelete_restored_documents st d hav hload hres, hidx]

theorem handleUndoDelete_restored_documents_nan (st : DashState) (d : Document)
    (hav : st.storageAvailable = true)
    (hload : loadLastDeletedDocument st.store = some d)
    (hres : (handleUndoDelete st).2 = UndoOutcome.restored)
    (hidx : loadLastDeletedDocumentIndex st.store = none) :
    (handleUndoDelete st).1.documents = st.documents ++ [d] := by
  rw [handleUndoDelete_restored_documents st d hav hload hres, hidx]

theorem handleUndoDelete_restored_mem (st : DashState) (d : Document)
    (hav : st.storageAvailable = true)
    (hload : loadLastDeletedDocument st.store = some d)
    (hres : (handleUndoDelete st).2 = UndoOutcome.restored) :
    d ∈ (handleUndoDelete st).1.documents ∧
    ∀ x ∈ (handleUndoDelete st).1.documents, x = d ∨ x ∈ st.documents := by
  have happend : d ∈ st.documents ++ [d] ∧
      ∀ x ∈ st.documents ++ [d], x = d ∨ x ∈ st.documents := by
    constructor
    · simp
    · intro x hx
      rcases List.mem_append.1 hx with h | h
      · exact Or.inr h
      · exact Or.inl (List.mem_singleton.1 h)
  cases hidx : loadLastDeletedDocumentIndex st.store with
  | none =>
    rw [handleUndoDelete_restored_documents_nan st d hav hload hres hidx]
    exact happend
  | some i =>
    rw [handleUndoDelete_restored_documents_idx st d i hav hload hres hidx]
    by_cases hc : 0 ≤ i ∧ i ≤ (st.documents.length : Int)
    · rw [if_pos hc]
      have hlen : i.toNat ≤ st.documents.length := by omega
      constructor
      · exact (List.mem_insertIdx hlen).2 (Or.inl rfl)
      · intro x hx
        exact (List.mem_insertIdx hlen).1 hx
    · rw [if_neg hc]
      exact happend


theorem handleUndoDelete_active_available (st : DashState)
    (h : (handleUndoDelete st).2 = UndoOutcome.restored ∨
      (handleUndoDelete st).2 = UndoOutcome.storageError) :
    st.storageAvailable = true := by
  by_cases hav : st.storageAvailable = false
  · rcases h with h | h <;> simp [handleUndoDelete, hav] at h
  · revert hav
    cases st.storageAvailable <;> simp

/-- C4: for every pending undo record with document `d` and original index
`i ≥ 0`, a successful restore re-inserts `d` at position `min i n` where `n`
is the current collection length; in particular an out-of-range original
index never fails — the document is appended at the end. -/
theorem handleUndoDelete_insert_at_min (st : DashState) (d : Document) (i : Int)
    (hav : st.storageAvailable = true)
    (hload : loadLastDeletedDocument st.store = some d)
    (hidx : loadLastDeletedDocumentIndex st.store = some i)
    (hi : 0 ≤ i)
    (hres : (handleUndoDelete st).2 = UndoOutcome.restored) :
    (handleUndoDelete st).1.documents =
      st.documents.insertIdx (min i.toNat st.documents.length) d ∧
    ((st.documents.length : Int) < i →
      (handleUndoDelete st).1.documents = st.documents ++ [d]) := by
  have hdoc := handleUndoDelete_restored_documents_idx st d i hav hload hres hidx
  by_cases hc : 0 ≤ i ∧ i ≤ (st.documents.length : Int)
  · rw [if_pos hc] at hdoc
    have hmin : min i.toNat st.documents.length = i.toNat := by omega
    rw [hmin]
    exact ⟨hdoc, fun hgt => absurd hc (by omega)⟩
  · rw [if_neg hc] at hdoc
    have hmin : min i.toNat st.documents.length = st.documents.length := by omega
    rw [hmin, List.insertIdx_length_self]
    exact ⟨hdoc, fun _ => hdoc⟩

/-- Document used by the undo scenarios. -/
def scenDoc (s : String) : Document :=
  { id := s, title := "T" ++ s, category := "personal", uploadDate := "2024-01-01" }

/-- Initial dashboard state with five documents and an empty store. -/
def scenState0 : DashState :=
  { documents := [scenDoc "0", scenDoc "1", scenDoc "2", scenDoc "3", scenDoc "4"],
    categories := [], store := { entries := [], liveQuota := 100000000 },
    storageAvailable := true, hasDeletedDoc := false, documentToDelete := none,
    deleteDialogOpen := false, storageWarning := none }

/-- The state after deleting the document at index 2 of 5 and then adding two
more documents (now 6 total). -/
def scenState2 : DashState :=
  handleAddDocument (scenDoc "6")
    (handleAddDocument (scenDoc "5") (deleteDoc (scenDoc "2") scenState0).1)

set_option maxRecDepth 16384 in
/-- Witness for `handleUndoDelete_insert_at_min`: deleting the document at
index 2 of 5, adding 2 documents, and restoring re-inserts it at index
`min 2 6 = 2`. -/
theorem handleUndoDelete_insert_at_min_witness :
    scenState2.storageAvailable = true ∧
    loadLastDeletedDocument scenState2.store = some (scenDoc "2") ∧
    loadLastDeletedDocumentIndex scenState2.store = some 2 ∧
    (0 : Int) ≤ 2 ∧
    (handleUndoDelete scenState2).2 = UndoOutcome.restored ∧
    (handleUndoDelete scenState2).1.documents =
      scenState2.documents.insertIdx (min (2 : Int).toNat scenState2.documents.length)
        (scenDoc "2") :=
  have h1 : scenState2.storageAvailable = true := by decide
  have h2 : loadLastDeletedDocument scenState2.store = some (scenDoc "2") := by decide
  have h3 : loadLastDeletedDocumentIndex scenState2.store = some 2 := by decide
  have h5 : (handleUndoDelete scenState2).2 = UndoOutcome.restored := by decide
  ⟨h1, h2, h3, by decide,
   h5, (handleUndoDelete_insert_at_min scenState2 (scenDoc "2") 2 h1 h2 h3
      (by decide) h5).1⟩

/-- C5: restore fails with the nothing-to-restore outcome when the ledger is
empty; the ledger is cleared before the collection mutation (it is empty
afterwards even when the subsequent persist fails); and a second restore
right after a successful one fails with the nothing-to-restore outcome and
changes nothing. -/
theorem handleUndoDelete_nothing_to_restore (st : DashState) :
    (st.storageAvailable = true → loadLastDeletedDocument st.store = none →
      handleUndoDelete st = (st, UndoOutcome.undoFailed)) ∧
    (∀ d : Document, loadLastDeletedDocument st.store = some d →
      (handleUndoDelete st).2 = UndoOutcome.restored ∨
        (handleUndoDelete st).2 = UndoOutcome.storageError →
      loadLastDeletedDocument (handleUndoDelete st).1.store = none) ∧
    ((handleUndoDelete st).2 = UndoOutcome.restored →
      handleUndoDelete ((handleUndoDelete st).1) =
        ((handleUndoDelete st).1, UndoOutcome.undoFailed)) := by
  refine ⟨fun hav hload => handleUndoDelete_of_empty st hav hload, ?_, ?_⟩
  · intro d hload h
    exact handleUndoDelete_ledger_cleared st d (handleUndoDelete_active_available st h)
      hload h
  · intro hres
    have hav := handleUndoDelete_restored_available st hres
    obtain ⟨d, hload⟩ : ∃ d, loadLastDeletedDocument st.store = some d := by
      cases hl : loadLastDeletedDocument st.store with
      | none =>
        rw [handleUndoDelete_of_empty st hav hl] at hres
        simp at hres
      | some d => exact ⟨d, rfl⟩
    have hclear := handleUndoDelete_ledger_cleared st d hav hload (Or.inl hres)
    have hav1 : (handleUndoDelete st).1.storageAvailable = true := by
      rw [handleUndoDelete_storageAvailable]
      exact hav
    exact handleUndoDelete_of_empty _ hav1 hclear

set_option maxRecDepth 16384 in
/-- Witness for `handleUndoDelete_nothing_to_restore`: an empty-ledger state
fails immediately, and after the successful scenario restore a second restore
fails with no state change. -/
theorem handleUndoDelete_nothing_to_restore_witness :
    (scenState0.storageAvailable = true ∧ loadLastDeletedDocument scenState0.store = none ∧
      handleUndoDelete scenState0 = (scenState0, UndoOutcome.undoFailed)) ∧
    ((handleUndoDelete scenState2).2 = UndoOutcome.restored ∧
      handleUndoDelete ((handleUndoDelete scenState2).1) =
        ((handleUndoDelete scenState2).1, UndoOutcome.undoFailed)) :=
  ⟨⟨rfl, by decide,
    (handleUndoDelete_nothing_to_restore scenState0).1 rfl (by decide)⟩,
   ⟨by decide,
    (handleUndoDelete_nothing_to_restore scenState2).2.2 (by decide)⟩⟩


theorem findIndexJS_mem (doc : Document) (l : List Document) (h : doc ∈ l) :
    findIndexJS (fun x => x.id = doc.id) l ≠ -1 := by
  unfold findIndexJS
  cases hf : l.findIdx? (fun x => x.id = doc.id) with
  | some n => simp
  | none =>
    exfalso
    have := List.findIdx?_eq_none_iff.mp hf doc h
    simp at this

theorem deleteDoc_spec (doc : Document) (st : DashState)
    (hav : st.storageAvailable = true) (hmem : doc ∈ st.documents)
    (hnoexc : (deleteDoc doc st).2 = none) :
    (deleteDoc doc st).1.documents =
      st.documents.filter (fun x => ¬ (x.id = doc.id)) ∧
    (deleteDoc doc st).1.store.getItem LAST_DELETED_DOCUMENT_KEY =
      some (serializeDocument doc) ∧
    (deleteDoc doc st).1.storageAvailable = true := by
  have hidx := findIndexJS_mem doc st.documents hmem
  simp only [deleteDoc, initiateDeleteDocument, handleDeleteDocument] at hnoexc ⊢
  rw [if_pos ⟨hav, hidx⟩] at hnoexc ⊢
  simp only [saveLastDeletedDocument] at hnoexc ⊢
  cases hset1 : st.store.setItem LAST_DELETED_DOCUMENT_KEY (serializeDocument doc) with
  | none =>
    rw [hset1] at hnoexc
    simp at hnoexc
  | some s1 =>
    simp only [hset1] at hnoexc
    cases hset2 : s1.setItem LAST_DELETED_DOCUMENT_INDEX_KEY
        (intToStringJS (findIndexJS (fun x => x.id = doc.id) st.documents)) with
    | none =>
      simp only [hset2] at hnoexc
      simp at hnoexc
    | some s2 =>
      simp only [hset1, hset2]
      rw [if_pos hav]
      have hlast : ∀ docs : List Document,
          ((saveDocuments docs s2).2).getItem LAST_DELETED_DOCUMENT_KEY =
            some (serializeDocument doc) := by
        intro docs
        rw [saveDocuments_getItem_other docs s2 _ (by decide),
          getItem_setItem_other _ _ _ _ _ hset2 (by decide),
          getItem_setItem_self _ _ _ _ hset1]
      split
      · exact ⟨rfl, hlast _, hav⟩
      · exact ⟨rfl, hlast _, hav⟩


/-- C3: the undo ledger is single-level — deleting `a` and then `b` leaves
only `b` restorable, and a subsequent successful restore yields a collection
with `b` present and `a` absent. -/
theorem delete_delete_restore (st : DashState) (a b : Document)
    (hav : st.storageAvailable = true)
    (ha : a ∈ st.documents) (hb : b ∈ st.documents) (hid : a.id ≠ b.id)
    (hd1 : (deleteDoc a st).2 = none)
    (hd2 : (deleteDoc b (deleteDoc a st).1).2 = none) :
    loadLastDeletedDocument ((deleteDoc b (deleteDoc a st).1).1).store = some b ∧
    ((handleUndoDelete ((deleteDoc b (deleteDoc a st).1).1)).2 = UndoOutcome.restored →
      b ∈ (handleUndoDelete ((deleteDoc b (deleteDoc a st).1).1)).1.documents ∧
      a ∉ (handleUndoDelete ((deleteDoc b (deleteDoc a st).1).1)).1.documents) := by
  obtain ⟨hdocs1, hlast1, hav1⟩ := deleteDoc_spec a st hav ha hd1
  have hb1 : b ∈ (deleteDoc a st).1.documents := by
    rw [hdocs1]
    refine List.mem_filter.2 ⟨hb, ?_⟩
    simp only [decide_eq_true_eq, decide_not, Bool.not_eq_true']
    simp only [decide_eq_false_iff_not]
    exact fun h => hid h.symm
  obtain ⟨hdocs2, hlast2, hav2⟩ := deleteDoc_spec b (deleteDoc a st).1 hav1 hb1 hd2
  have hload : loadLastDeletedDocument ((deleteDoc b (deleteDoc a st).1).1).store =
      some b := by
    simp [loadLastDeletedDocument, hlast2, serializeDocument_ne_empty b,
      parseDocumentString_roundTrip]
  refine ⟨hload, fun hres => ?_⟩
  obtain ⟨hmemb, hsub⟩ := handleUndoDelete_restored_mem _ b hav2 hload hres
  refine ⟨hmemb, fun hmem_a => ?_⟩
  rcases hsub a hmem_a with h | h
  · exact hid (congrArg Document.id h)
  · rw [hdocs2] at h
    have h' := (List.mem_filter.1 h).1
    rw [hdocs1] at h'
    have h2 := (List.mem_filter.1 h').2
    simp at h2

/-- State after deleting the document with id "1" from the scenario state. -/
def c3State1 : DashState := (deleteDoc (scenDoc "1") scenState0).1

/-- State after further deleting the document with id "3". -/
def c3State2 : DashState := (deleteDoc (scenDoc "3") c3State1).1

set_option maxRecDepth 16384 in
/-- Witness for `delete_delete_restore`: deleting documents "1" then "3" from
the concrete five-document state leaves only "3" restorable; restoring yields
"3" present and "1" absent. -/
theorem delete_delete_restore_witness :
    (scenState0.storageAvailable = true ∧ scenDoc "1" ∈ scenState0.documents ∧
      scenDoc "3" ∈ scenState0.documents ∧ (scenDoc "1").id ≠ (scenDoc "3").id ∧
      (deleteDoc (scenDoc "1") scenState0).2 = none ∧
      (deleteDoc (scenDoc "3") (deleteDoc (scenDoc "1") scenState0).1).2 = none) ∧
    loadLastDeletedDocument
        ((deleteDoc (scenDoc "3") (deleteDoc (scenDoc "1") scenState0).1).1).store =
      some (scenDoc "3") ∧
    (scenDoc "3" ∈ (handleUndoDelete
        ((deleteDoc (scenDoc "3") (deleteDoc (scenDoc "1") scenState0).1).1)).1.documents ∧
      scenDoc "1" ∉ (handleUndoDelete
        ((deleteDoc (scenDoc "3") (deleteDoc (scenDoc "1") scenState0).1).1)).1.documents) :=
  have H := delete_delete_restore scenState0 (scenDoc "1") (scenDoc "3") rfl
    (by decide) (by decide) (by decide) (by decide) (by decide)
  ⟨⟨rfl, by decide, by decide, by decide, by decide, by decide⟩, H.1, H.2 (by decide)⟩

end DocManager
